import Mathlib

/-!
# Frame extractor: a shallow embedding of `frame_extractor.c`

The program opens a media container, picks the first video stream, decodes it and
writes every N-th decoded frame whose time lies in `[start_time, end_time]` as a
JPEG file `frame_%05d.jpg`.

The FFmpeg library calls are the environment of the program.  Their results are
inputs of the model: the outcome of every setup call is a field of `Env`, the
packets that `av_read_frame` delivers are a list, and each packet carries the
frames that `avcodec_receive_frame` yields for it.  Everything `main` and
`save_frame_as_jpeg` compute themselves (stream selection, the frame time, the
window test, the stride test, both counters, the file name, the exit code) is
translated line by line.

* `int` is 32 bits wide: arithmetic on `int` values is wrapped with `wrap32` (two's
  complement; C itself leaves signed overflow undefined).
* `double` is IEEE binary64, modelled exactly (`Double`).
* `frame_count % N` is a division fault when `N = 0`, and when `N = -1` and
  `frame_count = INT_MIN`: the loop then yields `none`.
* The allocations whose result `main` does not test (the decoder context of line 99,
  the packet and the frame of lines 139-140) are taken to succeed.
-/

namespace FrameExtractor

set_option maxRecDepth 100000

/-! ## Machine integers -/

/-- Largest value of a C `int` (32 bits). -/
def INT_MAX : Int := 2147483647

/-- Smallest value of a C `int` (32 bits). -/
def INT_MIN : Int := -2147483648

/-- Reduction of a mathematical integer to the 32-bit two's complement range. -/
def wrap32 (x : Int) : Int := (x + 2147483648) % 4294967296 - 2147483648

/-- Modelled from the spec: the macro `AV_TIME_BASE` of libavutil, the number of
container time units per second (an `int` constant, 1000000). -/
def AV_TIME_BASE : Int := 1000000

/-! ## IEEE binary64 -/

/-- A `double`: the finite value `m * 2 ^ e`, an infinity, or a NaN. -/
inductive Double where
  | fin (m : Int) (e : Int)
  | inf (neg : Bool)
  | nan
  deriving DecidableEq, Repr

/-- Floor of the binary logarithm of `a` (0 for `a < 2`); the first argument bounds
the number of halvings. -/
def ilog2 : Nat → Nat → Nat
  | 0, _ => 0
  | fuel + 1, a => if a < 2 then 0 else ilog2 fuel (a / 2) + 1

/-- The power `2 ^ k` for `k ≥ 0` and `1` for `k < 0`. -/
def pow2 (k : Int) : Nat := 2 ^ k.toNat

/-- Round the rational `n / d` (`d > 0`) to the nearest binary64 value, ties to
even: 53 significant bits, gradual underflow below `2 ^ (-1022)`, overflow to an
infinity. -/
def Double.round (n : Int) (d : Nat) : Double :=
  if n = 0 then .fin 0 0 else
  let a := n.natAbs
  let l : Int := (ilog2 a a : Int) - (ilog2 d d : Int)
  let fl : Int := if a * pow2 (-l) ≥ d * pow2 l then l else l - 1
  let k : Int := max (fl - 52) (-1074)
  let num := a * pow2 (-k)
  let den := d * pow2 k
  let q := num / den
  let r := num % den
  let q1 := if den < 2 * r ∨ (2 * r = den ∧ q % 2 = 1) then q + 1 else q
  if 971 < k ∨ (k = 971 ∧ q1 = 2 ^ 53) then .inf (decide (n < 0))
  else .fin (if n < 0 then -(q1 : Int) else (q1 : Int)) k

/-- Conversion of an `int` to `double`: exact, every 32-bit integer is a binary64
value. -/
def Double.ofInt (n : Int) : Double := .fin n 0

/-- Conversion of an `int64_t` to `double`: rounded to 53 significant bits. -/
def Double.ofInt64 (n : Int) : Double := Double.round n 1

/-- The product of two doubles, rounded to nearest. -/
def Double.mul : Double → Double → Double
  | .nan, _ => .nan
  | _, .nan => .nan
  | .inf s, .inf t => .inf (s != t)
  | .inf s, .fin m _ => if m = 0 then .nan else .inf (s != decide (m < 0))
  | .fin m _, .inf s => if m = 0 then .nan else .inf (s != decide (m < 0))
  | .fin m1 e1, .fin m2 e2 =>
      Double.round (m1 * m2 * (pow2 (e1 + e2) : Int)) (pow2 (-(e1 + e2)))

/-- The quotient of two `int` values converted to `double`, rounded to nearest. -/
def Double.divInt (num den : Int) : Double :=
  if den = 0 then (if num = 0 then .nan else .inf (decide (num < 0)))
  else Double.round (if den < 0 then -num else num) den.natAbs

/-- The comparison `a <= b` of C on doubles (false when either side is a NaN). -/
def Double.le : Double → Double → Bool
  | .nan, _ => false
  | _, .nan => false
  | .inf true, _ => true
  | _, .inf false => true
  | .inf false, _ => false
  | _, .inf true => false
  | .fin m1 e1, .fin m2 e2 =>
      decide (m1 * (pow2 (e1 - min e1 e2) : Int) ≤ m2 * (pow2 (e2 - min e1 e2) : Int))

/-- The comparison `a < b` of C on doubles (false when either side is a NaN). -/
def Double.lt : Double → Double → Bool
  | .nan, _ => false
  | _, .nan => false
  | .inf true, .inf true => false
  | .inf true, _ => true
  | .inf false, _ => false
  | .fin _ _, .inf s => !s
  | .fin m1 e1, .fin m2 e2 =>
      decide (m1 * (pow2 (e1 - min e1 e2) : Int) < m2 * (pow2 (e2 - min e1 e2) : Int))

/-- The comparison `a >= b` of C on doubles. -/
def Double.ge (a b : Double) : Bool := Double.le b a

/-- The comparison `a > b` of C on doubles. -/
def Double.gt (a b : Double) : Bool := Double.lt b a

/-! ## Data model -/

/-- The media types of libavutil (`enum AVMediaType`). -/
inductive AVMediaType where
  | UNKNOWN | VIDEO | AUDIO | DATA | SUBTITLE | ATTACHMENT
  deriving DecidableEq, Repr

/-- A rational number of libavutil: numerator and denominator, both `int`. -/
structure AVRational where
  num : Int
  den : Int
  deriving DecidableEq, Repr

/-- The function `av_q2d`: the rational as a double, `a.num / (double) a.den`. -/
def av_q2d (a : AVRational) : Double := Double.divInt a.num a.den

/-- The fields of a stream descriptor that `main` reads. -/
structure AVStream where
  codec_type : AVMediaType
  time_base : AVRational
  deriving DecidableEq, Repr

/-- A decoded frame: its presentation timestamp, and what the calls made by
`save_frame_as_jpeg` return if this frame is handed to it. -/
structure Frame where
  pts : Int
  /-- Whether `av_packet_alloc` returns a packet. -/
  packet_alloc_ok : Bool
  /-- Whether `avcodec_send_frame(jpegCtx, pFrame) == 0`. -/
  send_frame_ok : Bool
  /-- Whether `avcodec_receive_packet(jpegCtx, pkt) == 0`. -/
  receive_packet_ok : Bool
  /-- Whether `fopen(filename, "wb")` returns a file. -/
  fopen_ok : Bool
  deriving DecidableEq, Repr

/-- A demuxed packet: its stream index, whether `avcodec_send_packet` accepts it,
and the frames for which `avcodec_receive_frame` then returns 0, in order. -/
structure Packet where
  stream_index : Int
  send_packet_ok : Bool
  frames : List Frame
  deriving DecidableEq, Repr

/-- A file written by `save_frame_as_jpeg`: its name and the frame whose encoding
it holds. -/
structure Artifact where
  filename : String
  frame : Frame
  deriving DecidableEq, Repr

/-! ## `save_frame_as_jpeg` -/

/-- The decimal digits of `n`, least significant first, none for 0; the first
argument bounds the number of digits. -/
def decDigits : Nat → Nat → List Nat
  | 0, _ => []
  | fuel + 1, n => if n = 0 then [] else (n % 10) :: decDigits fuel (n / 10)

/-- The character of a decimal digit. -/
def digitChar (d : Nat) : Char := Char.ofNat (48 + d)

/-- The digits of `n` most significant first, filled with leading zeros to at
least `width` characters. -/
def zeroPad (width n : Nat) : List Char :=
  ((decDigits n n ++ List.replicate (width - (decDigits n n).length) 0).reverse).map digitChar

/-- The conversion `%05d` of printf: minimum field width 5, padded with zeros
after the sign. -/
def fmt05d (n : Int) : List Char :=
  if n < 0 then (Char.ofNat 45) :: zeroPad 4 n.natAbs else zeroPad 5 n.natAbs

/-- The name built by `snprintf(filename, sizeof(filename), "frame_%05d.jpg", frame_number)`:
at most 21 characters, so the 64-byte buffer never truncates it. -/
def jpeg_filename (frame_number : Int) : String :=
  String.mk ("frame_".data ++ fmt05d frame_number ++ ".jpg".data)

/-- The function `save_frame_as_jpeg`: the file it writes, if any.  It writes one
only when the packet allocation, both encoder calls and `fopen` succeed. -/
def save_frame_as_jpeg (pFrame : Frame) (frame_number : Int) : Option Artifact :=
  if !pFrame.packet_alloc_ok then none
  else if pFrame.send_frame_ok then
    if pFrame.receive_packet_ok then
      if pFrame.fopen_ok then some ⟨jpeg_filename frame_number, pFrame⟩
      else none
    else none
  else none

/-! ## The main loop -/

/-- The variables of `main` that the loop reads and never writes. -/
structure Config where
  start_time : Int
  end_time : Int
  N : Int
  video_stream_index : Int
  time_base : AVRational
  deriving DecidableEq, Repr

/-- The variables the loop updates, with a log of the calls it makes. -/
structure LoopState where
  frame_count : Int
  saved_frame_count : Int
  reached_end : Bool
  /-- Number of calls of `av_read_frame` so far. -/
  reads : Nat
  /-- The calls of `save_frame_as_jpeg` so far: frame and `frame_number`, oldest first. -/
  calls : List (Frame × Int)
  /-- The files written so far, oldest first. -/
  artifacts : List Artifact
  deriving DecidableEq, Repr

/-- The state before the loop: both counters 0, the flag clear, nothing written. -/
def LoopState.init : LoopState :=
  { frame_count := 0, saved_frame_count := 0, reached_end := false, reads := 0,
    calls := [], artifacts := [] }

/-- Line 155: `pFrame->pts * av_q2d(time_base)`. -/
def frame_time (cfg : Config) (f : Frame) : Double :=
  Double.mul (Double.ofInt64 f.pts) (av_q2d cfg.time_base)

/-- Line 158: `frame_time >= start_time && frame_time <= end_time`. -/
def in_window (cfg : Config) (f : Frame) : Bool :=
  Double.ge (frame_time cfg f) (Double.ofInt cfg.start_time)
    && Double.le (frame_time cfg f) (Double.ofInt cfg.end_time)

/-- Line 166: `frame_time > end_time`. -/
def past_end (cfg : Config) (f : Frame) : Bool :=
  Double.gt (frame_time cfg f) (Double.ofInt cfg.end_time)

/-- Line 161: `save_frame_as_jpeg(jpegCtx, pFrame, saved_frame_count++)`. -/
def dispatch (st : LoopState) (f : Frame) : LoopState :=
  { st with
    saved_frame_count := wrap32 (st.saved_frame_count + 1)
    calls := st.calls ++ [(f, st.saved_frame_count)]
    artifacts := st.artifacts ++ (save_frame_as_jpeg f st.saved_frame_count).toList }

/-- Lines 158-164: the window test, the stride test and the two counters.  `none`
is the division fault of `frame_count % N`: with `N = 0`, and with `N = -1` once
`frame_count` is `INT_MIN`, where the quotient does not fit an `int`. -/
def count_and_save (cfg : Config) (st : LoopState) (f : Frame) : Option LoopState :=
  if in_window cfg f then
    if cfg.N = 0 ∨ (st.frame_count = INT_MIN ∧ cfg.N = -1) then none
    else
      let st1 := if Int.tmod st.frame_count cfg.N = 0 then dispatch st f else st
      some { st1 with frame_count := wrap32 (st1.frame_count + 1) }
  else some st

/-- The body of the inner loop (lines 154-170) for one decoded frame: the new
state, and whether the `break` of line 168 is taken. -/
def process_frame (cfg : Config) (st : LoopState) (f : Frame) : Option (LoopState × Bool) :=
  match count_and_save cfg st f with
  | none => none
  | some st1 =>
    if past_end cfg f then some ({ st1 with reached_end := true }, true)
    else some (st1, false)

/-- The inner loop (line 153) over the frames the decoder yields for one packet. -/
def receive_loop (cfg : Config) (st : LoopState) : List Frame → Option LoopState
  | [] => some st
  | f :: fs =>
    match process_frame cfg st f with
    | none => none
    | some (st1, true) => some st1
    | some (st1, false) => receive_loop cfg st1 fs

/-- The body of the outer loop (lines 151-174) for one packet. -/
def process_packet (cfg : Config) (st : LoopState) (p : Packet) : Option LoopState :=
  if p.stream_index = cfg.video_stream_index then
    if p.send_packet_ok then receive_loop cfg st p.frames
    else some st
  else some st

/-- The outer loop (line 150).  The list holds the packets `av_read_frame` delivers
before it reports the end of the input.  The condition calls `av_read_frame` first
and tests `reached_end` second. -/
def read_loop (cfg : Config) (st : LoopState) : List Packet → Option LoopState
  | [] => some { st with reads := st.reads + 1 }
  | p :: ps =>
    if st.reached_end then some { st with reads := st.reads + 1 }
    else
      match process_packet cfg { st with reads := st.reads + 1 } p with
      | none => none
      | some st1 => read_loop cfg st1 ps

/-! ## `main` -/

/-- The outcome of every library call of the setup phase, the parsed arguments and
the packets of the input. -/
structure Env where
  argc : Int
  /-- Value of `atoi(argv[2])`. -/
  start_time : Int
  /-- Value of `atoi(argv[3])`. -/
  end_time : Int
  /-- Value of `atoi(argv[4])`. -/
  N : Int
  /-- Whether `avformat_open_input(...) == 0`. -/
  open_input_ok : Bool
  /-- Whether `avformat_find_stream_info(...) >= 0`. -/
  find_stream_info_ok : Bool
  /-- The stream table `pFormatCtx->streams`. -/
  streams : List AVStream
  /-- Whether `avcodec_find_decoder` returns a codec. -/
  decoder_found : Bool
  /-- Whether `avcodec_parameters_to_context(...) >= 0`. -/
  parameters_to_context_ok : Bool
  /-- Whether `avcodec_open2(pCodecCtx, ...) >= 0`. -/
  decoder_open_ok : Bool
  /-- Whether `avcodec_find_encoder(AV_CODEC_ID_MJPEG)` returns a codec. -/
  jpeg_encoder_found : Bool
  /-- Whether `avcodec_alloc_context3(jpegCodec)` returns a context. -/
  jpeg_context_ok : Bool
  /-- Whether `avcodec_open2(jpegCtx, ...) >= 0`. -/
  jpeg_open_ok : Bool
  /-- The packets `av_read_frame` delivers after the seek. -/
  packets : List Packet
  deriving DecidableEq, Repr

/-- Lines 78-84: the index of the first video stream at or after position `i`, or
-1 when there is none. -/
def find_video_stream : List AVStream → Nat → Int
  | [], _ => -1
  | s :: rest, i =>
    if s.codec_type = AVMediaType.VIDEO then (i : Int) else find_video_stream rest (i + 1)

/-- Line 144: `start_time * AV_TIME_BASE`, an `int` product, then converted to
`int64_t`. -/
def start_pts (start_time : Int) : Int := wrap32 (start_time * AV_TIME_BASE)

/-- What a run of `main` leaves behind. -/
structure Run where
  exit_code : Int
  /-- The timestamp passed to `av_seek_frame`, if it was called. -/
  seek_target : Option Int
  final : LoopState
  deriving DecidableEq, Repr

/-- A run that returns -1 during setup. -/
def Run.setupFailure : Run := { exit_code := -1, seek_target := none, final := LoopState.init }

/-- The loop-invariant variables as `main` sets them up once the stream is
selected (lines 57-59, 78-84 and 155). -/
def loop_config (env : Env) (video_stream_index : Int) : Config :=
  { start_time := env.start_time, end_time := env.end_time, N := env.N,
    video_stream_index := video_stream_index,
    time_base := (env.streams.getD video_stream_index.toNat ⟨.UNKNOWN, ⟨0, 1⟩⟩).time_base }

/-- The function `main`; `none` is a run that dies of the division fault. -/
def main (env : Env) : Option Run :=
  if env.argc < 5 then some Run.setupFailure
  else if !env.open_input_ok then some Run.setupFailure
  else if !env.find_stream_info_ok then some Run.setupFailure
  else
    let video_stream_index := find_video_stream env.streams 0
    if video_stream_index = -1 then some Run.setupFailure
    else if !env.decoder_found then some Run.setupFailure
    else if !env.parameters_to_context_ok then some Run.setupFailure
    else if !env.decoder_open_ok then some Run.setupFailure
    else if !env.jpeg_encoder_found then some Run.setupFailure
    else if !env.jpeg_context_ok then some Run.setupFailure
    else if !env.jpeg_open_ok then some Run.setupFailure
    else
      match read_loop (loop_config env video_stream_index) LoopState.init env.packets with
      | none => none
      | some st =>
        some { exit_code := 0, seek_target := some (start_pts env.start_time), final := st }

/-! ## Notions used to state the properties -/

/-- All ten fatal setup steps of `main` succeed: at least four arguments, the
container opens, the streams are probed, a video stream exists, the decoder is
found, configured and opened, the JPEG encoder is found, allocated and opened. -/
def setup_ok (env : Env) : Bool :=
  decide (5 ≤ env.argc) && env.open_input_ok && env.find_stream_info_ok
    && env.streams.any (fun s => decide (s.codec_type = AVMediaType.VIDEO))
    && env.decoder_found && env.parameters_to_context_ok && env.decoder_open_ok
    && env.jpeg_encoder_found && env.jpeg_context_ok && env.jpeg_open_ok

/-- The frames the decoder hands to the loop, in order: the frames of the packets
of the selected stream that `avcodec_send_packet` accepts. -/
def decoded (cfg : Config) : List Packet → List Frame
  | [] => []
  | p :: ps =>
    (if p.stream_index = cfg.video_stream_index ∧ p.send_packet_ok = true then p.frames else [])
      ++ decoded cfg ps

/-- The encode and the file write of a frame succeed. -/
def save_ok (f : Frame) : Bool :=
  f.packet_alloc_ok && f.send_frame_ok && f.receive_packet_ok && f.fopen_ok

/-- The state `s` differs from `st` at most in `reads` and `reached_end`. -/
def SameCounters (s st : LoopState) : Prop :=
  s.frame_count = st.frame_count ∧ s.saved_frame_count = st.saved_frame_count
    ∧ s.calls = st.calls ∧ s.artifacts = st.artifacts

/-- The state `s` with its count of `av_read_frame` calls replaced by `r`. -/
def LoopState.withReads (s : LoopState) (r : Nat) : LoopState := { s with reads := r }

/-- The in-window frames among the decoded frames of a packet sequence, in order. -/
def windowFrames (cfg : Config) (ps : List Packet) : List Frame :=
  (decoded cfg ps).filter (in_window cfg)

/-- What the loop maintains after it has been fed the decoded frames `fs`: the
counters are non-negative and bounded by the number of in-window frames, the calls
of `save_frame_as_jpeg` carry the indices 0, 1, 2, ... in order, and the files are
those of the calls whose encode and write succeeded. -/
structure Inv (cfg : Config) (s : LoopState) (fs : List Frame) : Prop where
  fc_nonneg : 0 ≤ s.frame_count
  fc_le : s.frame_count ≤ ((fs.filter (in_window cfg)).length : Int)
  saved_eq : s.saved_frame_count = (s.calls.length : Int)
  calls_le : (s.calls.length : Int) ≤ s.frame_count
  calls_idx : s.calls.map Prod.snd = (List.range s.calls.length).map Int.ofNat
  artifacts_eq : s.artifacts =
    (s.calls.filter (fun c => save_ok c.1)).map (fun c => ⟨jpeg_filename c.2, c.1⟩)

/-- The number that a string of decimal digit characters denotes. -/
def decodeDigits (cs : List Char) : Nat :=
  Nat.ofDigits 10 ((cs.map (fun c => c.toNat - 48)).reverse)

/-- The packet makes the inner loop meet a frame past the end time: it belongs to the
selected stream, the decoder accepts it, and one of its frames is past the end. -/
def stops (cfg : Config) (p : Packet) : Bool :=
  decide (p.stream_index = cfg.video_stream_index) && p.send_packet_ok
    && p.frames.any (past_end cfg)

/-! ## Concrete inputs -/

/-- A frame with the given timestamp whose encode and file write succeed. -/
def okFrame (pts : Int) : Frame :=
  { pts := pts, packet_alloc_ok := true, send_frame_ok := true, receive_packet_ok := true,
    fopen_ok := true }

/-- A packet of stream 1 that decodes to exactly the given frame. -/
def videoPacket (f : Frame) : Packet :=
  { stream_index := 1, send_packet_ok := true, frames := [f] }

/-- A stream table with an audio stream at index 0 and a 25 fps video stream
(time base 1/25) at index 1. -/
def sampleStreams : List AVStream :=
  [⟨AVMediaType.AUDIO, ⟨1, 44100⟩⟩, ⟨AVMediaType.VIDEO, ⟨1, 25⟩⟩]

/-- A run over `sampleStreams` in which every setup step succeeds. -/
def sampleEnv (start_time end_time N : Int) (packets : List Packet) : Env :=
  { argc := 5, start_time := start_time, end_time := end_time, N := N,
    open_input_ok := true, find_stream_info_ok := true, streams := sampleStreams,
    decoder_found := true, parameters_to_context_ok := true, decoder_open_ok := true,
    jpeg_encoder_found := true, jpeg_context_ok := true, jpeg_open_ok := true,
    packets := packets }

/-- The loop configuration of `sampleEnv`. -/
def sampleConfig (start_time end_time N : Int) : Config :=
  { start_time := start_time, end_time := end_time, N := N, video_stream_index := 1,
    time_base := ⟨1, 25⟩ }

/-- A run with start 0, end 10 and stride 1 over two video packets with one frame
each, at 0 s and at 1 s; the encode of the first frame fails. -/
def gapEnv : Env :=
  sampleEnv 0 10 1
    [videoPacket { okFrame 0 with send_frame_ok := false }, videoPacket (okFrame 25)]

/-- What `main` leaves behind on `gapEnv`. -/
def gapRun : Run :=
  { exit_code := 0, seek_target := some 0,
    final :=
      { frame_count := 2, saved_frame_count := 2, reached_end := false, reads := 3,
        calls := [({ okFrame 0 with send_frame_ok := false }, 0), (okFrame 25, 1)],
        artifacts := [⟨"frame_00001.jpg", okFrame 25⟩] } }

/-- Seven packets: video frames at 0 s, 1 s, 2 s, 3 s and 4 s, with an audio packet
and a video packet the decoder refuses in between. -/
def stridePackets : List Packet :=
  [videoPacket (okFrame 0), videoPacket (okFrame 25),
    { stream_index := 0, send_packet_ok := true, frames := [] },
    { stream_index := 1, send_packet_ok := false, frames := [okFrame 30] },
    videoPacket (okFrame 50), videoPacket (okFrame 75), videoPacket (okFrame 100)]

/-- The frames of a 10-second stream at 25 frames per second: timestamps 0 to 249
in units of 1/25 s, every encode and write succeeding. -/
def scenarioFrames : List Frame := (List.range 250).map (fun i => okFrame (i : Int))

/-- The stream `scenarioFrames` demuxed one frame per packet. -/
def scenarioPackets : List Packet := scenarioFrames.map videoPacket

/-- The files the scenario writes: indices 0 to 15, holding the frames with the
timestamps 50, 55, ..., 125. -/
def scenarioArtifacts : List Artifact :=
  (List.range 16).map (fun j => ⟨jpeg_filename (j : Int), okFrame (50 + 5 * (j : Int))⟩)

/-! ## Doubles against integers -/

theorem pow2_pos (k : Int) : 0 < (pow2 k : Int) := by
  unfold pow2
  exact_mod_cast Nat.pos_pow_of_pos _ (by decide)

theorem Double.le_of_ge_of_le (x : Double) (a b : Int)
    (h1 : Double.ge x (Double.ofInt a) = true) (h2 : Double.le x (Double.ofInt b) = true) :
    a ≤ b := by
  cases x with
  | nan => simp [Double.ge, Double.le, Double.ofInt] at h1
  | inf neg => cases neg <;> simp [Double.ge, Double.le, Double.ofInt] at h1 h2
  | fin m e =>
    simp only [Double.ge, Double.le, Double.ofInt, decide_eq_true_eq] at h1 h2
    rw [min_comm] at h1
    have hc := pow2_pos (0 - min e 0)
    exact le_of_mul_le_mul_right (le_trans h1 h2) hc

theorem Double.not_ge_of_lt (x : Double) (a : Int)
    (h : Double.lt x (Double.ofInt a) = true) : Double.ge x (Double.ofInt a) = false := by
  cases x with
  | nan => simp [Double.ge, Double.le, Double.ofInt]
  | inf neg => cases neg <;> simp [Double.ge, Double.le, Double.lt, Double.ofInt] at h ⊢
  | fin m e =>
    simp only [Double.ge, Double.le, Double.lt, Double.ofInt, decide_eq_true_eq,
      decide_eq_false_iff_not, not_le] at h ⊢
    rw [min_comm]
    exact h

theorem in_window_start_le_end (cfg : Config) (f : Frame) (h : in_window cfg f = true) :
    cfg.start_time ≤ cfg.end_time := by
  unfold in_window at h
  rw [Bool.and_eq_true] at h
  exact Double.le_of_ge_of_le _ _ _ h.1 h.2

theorem in_window_false_of_lt (cfg : Config) (f : Frame) (h : cfg.end_time < cfg.start_time) :
    in_window cfg f = false := by
  cases hw : in_window cfg f with
  | false => rfl
  | true => exact absurd (in_window_start_le_end cfg f hw) (not_le.mpr h)

/-! ## Stream selection -/

theorem find_video_stream_spec (l : List AVStream) (k : Nat) :
    (find_video_stream l k = -1 ∧ ∀ s ∈ l, s.codec_type ≠ AVMediaType.VIDEO) ∨
    (∃ i : Nat, find_video_stream l k = ((k + i : Nat) : Int)
      ∧ (∃ s, l[i]? = some s ∧ s.codec_type = AVMediaType.VIDEO)
      ∧ ∀ j, j < i → ∀ s, l[j]? = some s → s.codec_type ≠ AVMediaType.VIDEO) := by
  induction l generalizing k with
  | nil => left; simp [find_video_stream]
  | cons s rest ih =>
    by_cases hs : s.codec_type = AVMediaType.VIDEO
    · right
      refine ⟨0, by simp [find_video_stream, hs], ⟨s, by simp, hs⟩, ?_⟩
      intro j hj; omega
    · rcases ih (k + 1) with ⟨h1, h2⟩ | ⟨i, h1, ⟨t, ht, htv⟩, h3⟩
      · left
        refine ⟨by simp [find_video_stream, hs, h1], ?_⟩
        intro t ht
        rcases List.mem_cons.mp ht with rfl | ht
        · exact hs
        · exact h2 t ht
      · right
        refine ⟨i + 1, ?_, ⟨t, by simpa using ht, htv⟩, ?_⟩
        · simp only [find_video_stream, hs, if_false, h1]
          congr 1; omega
        · intro j hj t ht
          cases j with
          | zero => simp at ht; subst ht; exact hs
          | succ j => exact h3 j (by omega) t (by simpa using ht)

theorem find_video_stream_eq_neg_one_iff (l : List AVStream) :
    find_video_stream l 0 = -1 ↔
      l.any (fun s => decide (s.codec_type = AVMediaType.VIDEO)) = false := by
  rcases find_video_stream_spec l 0 with ⟨h1, h2⟩ | ⟨i, h1, ⟨t, ht, htv⟩, _⟩
  · simp only [h1, true_iff]
    rw [Bool.eq_false_iff]
    intro hany
    rw [List.any_eq_true] at hany
    obtain ⟨s, hs, hv⟩ := hany
    exact h2 s hs (by simpa using hv)
  · have hne : find_video_stream l 0 ≠ -1 := by rw [h1]; omega
    simp only [hne, false_iff]
    rw [Bool.not_eq_false, List.any_eq_true]
    exact ⟨t, List.mem_iff_getElem?.mpr ⟨i, ht⟩, by simpa using htv⟩

/-! ## The stride test does not fault on a non-negative counter -/

theorem count_and_save_isSome (cfg : Config) (hN : cfg.N ≠ 0) (st : LoopState)
    (h0 : 0 ≤ st.frame_count) (f : Frame) :
    ∃ s, count_and_save cfg st f = some s := by
  unfold count_and_save
  have hmin : st.frame_count ≠ INT_MIN := by unfold INT_MIN; omega
  by_cases hw : in_window cfg f = true
  · simp [hw, hN, hmin]
  · simp [hw]

/-- The stride test faults at `INT_MIN % -1`: with the stride -1 and `frame_count` at
`INT_MIN`, a frame in the window ends the run. -/
theorem count_and_save_fault_at_int_min :
    count_and_save (sampleConfig 0 10 (-1)) { LoopState.init with frame_count := INT_MIN }
      (okFrame 0) = none := by
  decide

/-! ## `main` in terms of the loop -/

theorem main_of_no_video (env : Env) (h : find_video_stream env.streams 0 = -1) :
    main env = some Run.setupFailure := by
  unfold main
  simp only [h, if_true]
  split_ifs <;> rfl

theorem main_of_setup_failure (env : Env) (h : setup_ok env = false) :
    main env = some Run.setupFailure := by
  by_cases hv : find_video_stream env.streams 0 = -1
  · exact main_of_no_video env hv
  · have hany := hv
    rw [find_video_stream_eq_neg_one_iff, Bool.not_eq_false] at hany
    unfold main
    by_cases h1 : env.argc < 5
    · rw [if_pos h1]
    rw [if_neg h1]
    cases h2 : env.open_input_ok
    · simp only [Bool.not_false, if_true]
    cases h3 : env.find_stream_info_ok
    · simp only [Bool.not_false, Bool.not_true, Bool.false_eq_true, if_true, if_false]
    cases h5 : env.decoder_found
    · simp only [Bool.not_false, Bool.not_true, Bool.false_eq_true, if_true, if_false, hv]
    cases h6 : env.parameters_to_context_ok
    · simp only [Bool.not_false, Bool.not_true, Bool.false_eq_true, if_true, if_false, hv]
    cases h7 : env.decoder_open_ok
    · simp only [Bool.not_false, Bool.not_true, Bool.false_eq_true, if_true, if_false, hv]
    cases h8 : env.jpeg_encoder_found
    · simp only [Bool.not_false, Bool.not_true, Bool.false_eq_true, if_true, if_false, hv]
    cases h9 : env.jpeg_context_ok
    · simp only [Bool.not_false, Bool.not_true, Bool.false_eq_true, if_true, if_false, hv]
    cases h10 : env.jpeg_open_ok
    · simp only [Bool.not_false, Bool.not_true, Bool.false_eq_true, if_true, if_false, hv]
    exfalso
    have h0 : decide (5 ≤ env.argc) = true := by
      rw [decide_eq_true_eq]; omega
    simp [setup_ok, h0, h2, h3, h5, h6, h7, h8, h9, h10, hany] at h

theorem main_of_setup_ok (env : Env) (h : setup_ok env = true) :
    main env =
      (read_loop (loop_config env (find_video_stream env.streams 0)) LoopState.init
        env.packets).map
        (fun st => { exit_code := 0, seek_target := some (start_pts env.start_time), final := st }) := by
  have hv : find_video_stream env.streams 0 ≠ -1 := by
    rw [Ne, find_video_stream_eq_neg_one_iff]
    simp only [setup_ok, Bool.and_eq_true] at h
    simp [h.1.1.1.1.1.1.2]
  simp only [setup_ok, Bool.and_eq_true, decide_eq_true_eq] at h
  obtain ⟨⟨⟨⟨⟨⟨⟨⟨⟨h1, h2⟩, h3⟩, _⟩, h5⟩, h6⟩, h7⟩, h8⟩, h9⟩, h10⟩ := h
  unfold main
  have h1n : ¬ env.argc < 5 := by omega
  simp only [h1n, h2, h3, hv, h5, h6, h7, h8, h9, h10, if_false, Bool.not_true,
    Bool.false_eq_true]
  cases read_loop (loop_config env (find_video_stream env.streams 0)) LoopState.init
    env.packets <;> rfl

/-! ## Runs without a frame in the window -/

theorem count_and_save_of_not_in_window (cfg : Config) (st : LoopState) (f : Frame)
    (h : in_window cfg f = false) : count_and_save cfg st f = some st := by
  simp [count_and_save, h]

theorem SameCounters.refl (st : LoopState) : SameCounters st st := ⟨rfl, rfl, rfl, rfl⟩

theorem SameCounters.trans {a b c : LoopState} (h1 : SameCounters a b) (h2 : SameCounters b c) :
    SameCounters a c :=
  ⟨h1.1.trans h2.1, h1.2.1.trans h2.2.1, h1.2.2.1.trans h2.2.2.1, h1.2.2.2.trans h2.2.2.2⟩

theorem receive_loop_sameCounters (cfg : Config) (h : ∀ f, in_window cfg f = false)
    (fs : List Frame) (st : LoopState) :
    ∃ s, receive_loop cfg st fs = some s ∧ SameCounters s st := by
  induction fs generalizing st with
  | nil => exact ⟨st, rfl, SameCounters.refl st⟩
  | cons f fs ih =>
    have hc := count_and_save_of_not_in_window cfg st f (h f)
    by_cases hp : past_end cfg f = true
    · refine ⟨{ st with reached_end := true }, ?_, ⟨rfl, rfl, rfl, rfl⟩⟩
      simp [receive_loop, process_frame, hc, hp]
    · obtain ⟨s, hs, hsame⟩ := ih st
      refine ⟨s, ?_, hsame⟩
      simp [receive_loop, process_frame, hc, hp, hs]

theorem read_loop_sameCounters (cfg : Config) (h : ∀ f, in_window cfg f = false)
    (ps : List Packet) (st : LoopState) :
    ∃ s, read_loop cfg st ps = some s ∧ SameCounters s st := by
  induction ps generalizing st with
  | nil => exact ⟨_, rfl, ⟨rfl, rfl, rfl, rfl⟩⟩
  | cons p ps ih =>
    by_cases hr : st.reached_end = true
    · refine ⟨{ st with reads := st.reads + 1 }, ?_, ⟨rfl, rfl, rfl, rfl⟩⟩
      rw [read_loop, if_pos hr]
    · have hpk : ∃ s1, process_packet cfg { st with reads := st.reads + 1 } p = some s1
          ∧ SameCounters s1 st := by
        unfold process_packet
        split
        · split
          · obtain ⟨s1, hs1, hsame⟩ :=
              receive_loop_sameCounters cfg h p.frames { st with reads := st.reads + 1 }
            exact ⟨s1, hs1, hsame.trans ⟨rfl, rfl, rfl, rfl⟩⟩
          · exact ⟨_, rfl, ⟨rfl, rfl, rfl, rfl⟩⟩
        · exact ⟨_, rfl, ⟨rfl, rfl, rfl, rfl⟩⟩
      obtain ⟨s1, hs1, hsame1⟩ := hpk
      obtain ⟨s2, hs2, hsame2⟩ := ih s1
      refine ⟨s2, ?_, hsame2.trans hsame1⟩
      rw [read_loop, if_neg hr, hs1]
      exact hs2

/-! ## The two loops as one loop over the decoded frames -/

theorem wrap32_of_int (x : Int) (h0 : 0 ≤ x) (h1 : x ≤ INT_MAX) : wrap32 x = x := by
  unfold wrap32
  unfold INT_MAX at h1
  omega

theorem count_and_save_flags (cfg : Config) (st s : LoopState) (f : Frame)
    (h : count_and_save cfg st f = some s) :
    s.reached_end = st.reached_end ∧ s.reads = st.reads := by
  unfold count_and_save at h
  split at h
  · split at h
    · exact absurd h (by simp)
    · simp only [Option.some.injEq] at h
      subst h
      split <;> exact ⟨rfl, rfl⟩
  · simp only [Option.some.injEq] at h
    subst h
    exact ⟨rfl, rfl⟩

theorem process_frame_flag (cfg : Config) (st s : LoopState) (f : Frame) (b : Bool)
    (h : process_frame cfg st f = some (s, b)) (hst : st.reached_end = false) :
    s.reached_end = b := by
  unfold process_frame at h
  cases hc : count_and_save cfg st f with
  | none => rw [hc] at h; exact absurd h (by simp)
  | some s1 =>
    rw [hc] at h
    have hf := (count_and_save_flags cfg st s1 f hc).1
    simp only at h
    split at h
    · simp only [Option.some.injEq, Prod.mk.injEq] at h
      obtain ⟨h1, h2⟩ := h
      subst h1 h2
      rfl
    · simp only [Option.some.injEq, Prod.mk.injEq] at h
      obtain ⟨h1, h2⟩ := h
      subst h1 h2
      rw [hf, hst]

theorem receive_loop_append (cfg : Config) (a b : List Frame) (st : LoopState)
    (hst : st.reached_end = false) :
    receive_loop cfg st (a ++ b) =
      match receive_loop cfg st a with
      | none => none
      | some s => if s.reached_end then some s else receive_loop cfg s b := by
  induction a generalizing st with
  | nil => simp [receive_loop, hst]
  | cons f a ih =>
    simp only [List.cons_append, receive_loop]
    cases hp : process_frame cfg st f with
    | none => rfl
    | some r =>
      obtain ⟨s1, brk⟩ := r
      have hflag := process_frame_flag cfg st s1 f brk hp hst
      cases brk with
      | true => simp [hflag]
      | false => exact ih s1 hflag

theorem count_and_save_withReads (cfg : Config) (st : LoopState) (f : Frame) (r : Nat) :
    count_and_save cfg (st.withReads r) f =
      (count_and_save cfg st f).map (fun s => s.withReads r) := by
  unfold count_and_save
  by_cases hw : in_window cfg f = true
  · by_cases hF : cfg.N = 0 ∨ (st.frame_count = INT_MIN ∧ cfg.N = -1)
    · have hF2 : cfg.N = 0 ∨ ((st.withReads r).frame_count = INT_MIN ∧ cfg.N = -1) := hF
      simp only [hw, hF, hF2, if_true, Option.map_none']
    · have hF2 : ¬ (cfg.N = 0 ∨ ((st.withReads r).frame_count = INT_MIN ∧ cfg.N = -1)) := hF
      by_cases hm : Int.tmod st.frame_count cfg.N = 0
      · have hm2 : Int.tmod (st.withReads r).frame_count cfg.N = 0 := hm
        simp only [hw, hF, hF2, hm, hm2, if_true, if_false, Option.map_some']
        rfl
      · have hm2 : ¬ Int.tmod (st.withReads r).frame_count cfg.N = 0 := hm
        simp only [hw, hF, hF2, hm, hm2, if_true, if_false, Option.map_some']
        rfl
  · simp [hw]

theorem process_frame_withReads (cfg : Config) (st : LoopState) (f : Frame) (r : Nat) :
    process_frame cfg (st.withReads r) f =
      (process_frame cfg st f).map (fun q => (q.1.withReads r, q.2)) := by
  unfold process_frame
  rw [count_and_save_withReads]
  cases count_and_save cfg st f with
  | none => rfl
  | some s1 =>
    simp only [Option.map_some']
    split <;> rfl

theorem receive_loop_withReads (cfg : Config) (fs : List Frame) (st : LoopState) (r : Nat) :
    receive_loop cfg (st.withReads r) fs =
      (receive_loop cfg st fs).map (fun s => s.withReads r) := by
  induction fs generalizing st with
  | nil => rfl
  | cons f fs ih =>
    simp only [receive_loop]
    rw [process_frame_withReads]
    cases process_frame cfg st f with
    | none => rfl
    | some q =>
      obtain ⟨s1, brk⟩ := q
      cases brk with
      | true => rfl
      | false => exact ih s1

theorem withReads_withReads (s : LoopState) (a b : Nat) :
    (s.withReads a).withReads b = s.withReads b := rfl

theorem read_loop_of_reached_end (cfg : Config) (ps : List Packet) (st : LoopState)
    (h : st.reached_end = true) :
    read_loop cfg st ps = some (st.withReads (st.reads + 1)) := by
  cases ps with
  | nil => rfl
  | cons p ps => rw [read_loop, if_pos h]; rfl

theorem read_loop_cons_of_some (cfg : Config) (st : LoopState) (p : Packet) (ps : List Packet)
    (s1 : LoopState) (hre : st.reached_end = false)
    (h : process_packet cfg (st.withReads (st.reads + 1)) p = some s1) :
    read_loop cfg st (p :: ps) = read_loop cfg s1 ps := by
  have hnr : ¬ st.reached_end = true := by simp [hre]
  rw [read_loop, if_neg hnr]
  show (match process_packet cfg (st.withReads (st.reads + 1)) p with
    | none => none
    | some st1 => read_loop cfg st1 ps) = _
  rw [h]

/-- The outer loop computes what the inner loop computes on the concatenation of the
decoded frames; only the count of reads is its own. -/
theorem read_loop_eq_receive_loop (cfg : Config) (ps : List Packet) (st : LoopState)
    (hst : st.reached_end = false) :
    ∃ r, read_loop cfg st ps =
      (receive_loop cfg st (decoded cfg ps)).map (fun s => s.withReads r) := by
  induction ps generalizing st with
  | nil => exact ⟨st.reads + 1, rfl⟩
  | cons p ps ih =>
    have hnr : ¬ st.reached_end = true := by simp [hst]
    rw [read_loop, if_neg hnr]
    by_cases hv : p.stream_index = cfg.video_stream_index ∧ p.send_packet_ok = true
    · have hpk : process_packet cfg { st with reads := st.reads + 1 } p =
          (receive_loop cfg st p.frames).map (fun s => s.withReads (st.reads + 1)) := by
        unfold process_packet
        rw [if_pos hv.1, if_pos hv.2]
        exact receive_loop_withReads cfg p.frames st (st.reads + 1)
      rw [hpk]
      simp only [decoded, if_pos hv]
      rw [receive_loop_append cfg p.frames (decoded cfg ps) st hst]
      cases hrl : receive_loop cfg st p.frames with
      | none => exact ⟨0, rfl⟩
      | some s =>
        simp only [Option.map_some']
        cases hre : s.reached_end with
        | true =>
          refine ⟨st.reads + 1 + 1, ?_⟩
          rw [read_loop_of_reached_end cfg ps _ (by simpa [LoopState.withReads] using hre)]
          simp [LoopState.withReads]
        | false =>
          obtain ⟨r, hr⟩ := ih (s.withReads (st.reads + 1)) (by simpa [LoopState.withReads] using hre)
          refine ⟨r, ?_⟩
          rw [hr, receive_loop_withReads]
          cases receive_loop cfg s (decoded cfg ps) <;> simp [withReads_withReads]
    · have hpk : process_packet cfg { st with reads := st.reads + 1 } p =
          some (st.withReads (st.reads + 1)) := by
        unfold process_packet
        by_cases h1 : p.stream_index = cfg.video_stream_index
        · have h2 : ¬ p.send_packet_ok = true := fun h2 => hv ⟨h1, h2⟩
          rw [if_pos h1, if_neg h2]; rfl
        · rw [if_neg h1]; rfl
      rw [hpk]
      simp only [decoded, if_neg hv, List.nil_append]
      obtain ⟨r, hr⟩ := ih (st.withReads (st.reads + 1)) (by simpa [LoopState.withReads] using hst)
      refine ⟨r, ?_⟩
      rw [hr, receive_loop_withReads]
      cases receive_loop cfg st (decoded cfg ps) <;> simp [withReads_withReads]

/-! ## Invariants of the loop -/

theorem save_frame_as_jpeg_eq (f : Frame) (i : Int) :
    save_frame_as_jpeg f i = if save_ok f then some ⟨jpeg_filename i, f⟩ else none := by
  unfold save_frame_as_jpeg save_ok
  cases f.packet_alloc_ok <;> cases f.send_frame_ok <;> cases f.receive_packet_ok <;>
    cases f.fopen_ok <;> rfl

theorem count_and_save_cases (cfg : Config) (st s : LoopState) (f : Frame)
    (h : count_and_save cfg st f = some s) :
    (in_window cfg f = false ∧ s = st) ∨
    (in_window cfg f = true ∧ cfg.N ≠ 0 ∧ Int.tmod st.frame_count cfg.N ≠ 0
      ∧ s = { st with frame_count := wrap32 (st.frame_count + 1) }) ∨
    (in_window cfg f = true ∧ cfg.N ≠ 0 ∧ Int.tmod st.frame_count cfg.N = 0
      ∧ s = { dispatch st f with frame_count := wrap32 (st.frame_count + 1) }) := by
  unfold count_and_save at h
  by_cases hw : in_window cfg f = true
  · by_cases hF : cfg.N = 0 ∨ (st.frame_count = INT_MIN ∧ cfg.N = -1)
    · simp [hw, hF] at h
    · have hN : cfg.N ≠ 0 := fun hc => hF (Or.inl hc)
      by_cases hm : Int.tmod st.frame_count cfg.N = 0
      · simp only [hw, hF, hm, if_true, if_false, Option.some.injEq] at h
        exact Or.inr (Or.inr ⟨hw, hN, hm, h.symm⟩)
      · simp only [hw, hF, hm, if_true, if_false, Option.some.injEq] at h
        exact Or.inr (Or.inl ⟨hw, hN, hm, h.symm⟩)
  · simp only [hw, if_false, Option.some.injEq, Bool.false_eq_true] at h
    exact Or.inl ⟨by simpa using hw, h.symm⟩

theorem receive_loop_singleton (cfg : Config) (st : LoopState) (f : Frame) :
    receive_loop cfg st [f] = (process_frame cfg st f).map Prod.fst := by
  simp only [receive_loop]
  cases process_frame cfg st f with
  | none => rfl
  | some q =>
    obtain ⟨s1, brk⟩ := q
    cases brk <;> rfl

theorem Inv.init (cfg : Config) : Inv cfg LoopState.init [] :=
  ⟨le_refl _, le_refl _, rfl, le_refl _, rfl, rfl⟩

theorem filter_window_snoc_length (cfg : Config) (l : List Frame) (x : Frame) :
    ((l ++ [x]).filter (in_window cfg)).length =
      (l.filter (in_window cfg)).length + (if in_window cfg x then 1 else 0) := by
  rw [List.filter_append, List.length_append]
  by_cases hw : in_window cfg x = true <;> simp [List.filter, hw]

theorem Inv.count_and_save (cfg : Config) (st s : LoopState) (l : List Frame) (x : Frame)
    (hinv : Inv cfg st l)
    (hmax : (((l ++ [x]).filter (in_window cfg)).length : Int) ≤ INT_MAX)
    (h : count_and_save cfg st x = some s) : Inv cfg s (l ++ [x]) := by
  obtain ⟨h1, h2, h3, h4, h5, h6⟩ := hinv
  rw [filter_window_snoc_length] at hmax
  rcases count_and_save_cases cfg st s x h with ⟨hw, rfl⟩ | ⟨hw, _, _, rfl⟩ | ⟨hw, _, _, rfl⟩
  · refine ⟨h1, ?_, h3, h4, h5, h6⟩
    rw [filter_window_snoc_length]
    push_cast
    split <;> omega
  · simp only [hw, if_true] at hmax
    push_cast at hmax
    have hwrap : wrap32 (st.frame_count + 1) = st.frame_count + 1 :=
      wrap32_of_int _ (by omega) (by omega)
    refine ⟨?_, ?_, h3, ?_, h5, h6⟩
    · show 0 ≤ wrap32 (st.frame_count + 1)
      rw [hwrap]; omega
    · show wrap32 (st.frame_count + 1) ≤ _
      rw [hwrap, filter_window_snoc_length]
      simp only [hw, if_true]
      push_cast; omega
    · show (st.calls.length : Int) ≤ wrap32 (st.frame_count + 1)
      rw [hwrap]; omega
  · simp only [hw, if_true] at hmax
    push_cast at hmax
    have hwrap : wrap32 (st.frame_count + 1) = st.frame_count + 1 :=
      wrap32_of_int _ (by omega) (by omega)
    have hwrap2 : wrap32 (st.saved_frame_count + 1) = st.saved_frame_count + 1 :=
      wrap32_of_int _ (by omega) (by omega)
    refine ⟨?_, ?_, ?_, ?_, ?_, ?_⟩
    · show 0 ≤ wrap32 (st.frame_count + 1)
      rw [hwrap]; omega
    · show wrap32 (st.frame_count + 1) ≤ _
      rw [hwrap, filter_window_snoc_length]
      simp only [hw, if_true]
      push_cast; omega
    · show wrap32 (st.saved_frame_count + 1) = ((st.calls ++ [(x, st.saved_frame_count)]).length : Int)
      rw [hwrap2, h3]
      simp
    · show (((st.calls ++ [(x, st.saved_frame_count)]).length : Nat) : Int)
        ≤ wrap32 (st.frame_count + 1)
      rw [hwrap]
      simp only [List.length_append, List.length_singleton]
      push_cast; omega
    · show (st.calls ++ [(x, st.saved_frame_count)]).map Prod.snd =
        (List.range (st.calls ++ [(x, st.saved_frame_count)]).length).map Int.ofNat
      rw [List.map_append, h5, List.length_append, List.length_singleton, List.range_succ,
        List.map_append, h3]
      rfl
    · show st.artifacts ++ (save_frame_as_jpeg x st.saved_frame_count).toList =
        ((st.calls ++ [(x, st.saved_frame_count)]).filter (fun c => save_ok c.1)).map
          (fun c => (⟨jpeg_filename c.2, c.1⟩ : Artifact))
      rw [List.filter_append, List.map_append, ← h6, save_frame_as_jpeg_eq]
      by_cases hok : save_ok x = true <;> simp [List.filter, hok]

theorem Inv.mono (cfg : Config) (s : LoopState) (l : List Frame) (x : Frame)
    (hinv : Inv cfg s l) : Inv cfg s (l ++ [x]) := by
  obtain ⟨h1, h2, h3, h4, h5, h6⟩ := hinv
  refine ⟨h1, ?_, h3, h4, h5, h6⟩
  rw [filter_window_snoc_length]
  push_cast
  split <;> omega

theorem Inv.process_frame (cfg : Config) (st s : LoopState) (b : Bool) (l : List Frame)
    (x : Frame) (hinv : Inv cfg st l)
    (hmax : (((l ++ [x]).filter (in_window cfg)).length : Int) ≤ INT_MAX)
    (h : process_frame cfg st x = some (s, b)) : Inv cfg s (l ++ [x]) := by
  unfold FrameExtractor.process_frame at h
  cases hc : FrameExtractor.count_and_save cfg st x with
  | none => rw [hc] at h; exact absurd h (by simp)
  | some s1 =>
    rw [hc] at h
    obtain ⟨h1, h2, h3, h4, h5, h6⟩ := Inv.count_and_save cfg st s1 l x hinv hmax hc
    simp only at h
    split at h
    · simp only [Option.some.injEq, Prod.mk.injEq] at h
      obtain ⟨rfl, _⟩ := h
      exact ⟨h1, h2, h3, h4, h5, h6⟩
    · simp only [Option.some.injEq, Prod.mk.injEq] at h
      obtain ⟨rfl, _⟩ := h
      exact ⟨h1, h2, h3, h4, h5, h6⟩

/-- Every state the inner loop reaches from the initial state satisfies the
invariant, as long as the `int` counters can hold the number of in-window frames. -/
theorem receive_loop_inv (cfg : Config) (fs : List Frame)
    (hmax : ((fs.filter (in_window cfg)).length : Int) ≤ INT_MAX) (s : LoopState)
    (h : receive_loop cfg LoopState.init fs = some s) : Inv cfg s fs := by
  induction fs using List.reverseRecOn generalizing s with
  | nil =>
    simp only [receive_loop, Option.some.injEq] at h
    subst h
    exact Inv.init cfg
  | append_singleton l x ih =>
    have hmax1 : ((l.filter (in_window cfg)).length : Int) ≤ INT_MAX := by
      rw [filter_window_snoc_length] at hmax
      push_cast at hmax
      split at hmax <;> omega
    rw [receive_loop_append cfg l [x] LoopState.init rfl] at h
    cases hl : receive_loop cfg LoopState.init l with
    | none => rw [hl] at h; exact absurd h (by simp)
    | some s1 =>
      rw [hl] at h
      have hinv1 := ih hmax1 s1 hl
      simp only at h
      by_cases hre : s1.reached_end = true
      · rw [if_pos hre, Option.some.injEq] at h
        subst h
        exact Inv.mono cfg s1 l x hinv1
      · rw [if_neg hre, receive_loop_singleton] at h
        cases hp : process_frame cfg s1 x with
        | none => rw [hp] at h; exact absurd h (by simp)
        | some q =>
          obtain ⟨s2, b⟩ := q
          rw [hp] at h
          simp only [Option.map_some', Option.some.injEq] at h
          subst h
          exact Inv.process_frame cfg s1 s2 b l x hinv1 hmax hp

/-! ## The loop does not fault within the range of `int` -/

theorem receive_loop_isSome (cfg : Config) (hN : cfg.N ≠ 0) (fs : List Frame)
    (hmax : ((fs.filter (in_window cfg)).length : Int) ≤ INT_MAX) :
    ∃ s, receive_loop cfg LoopState.init fs = some s := by
  induction fs using List.reverseRecOn with
  | nil => exact ⟨LoopState.init, rfl⟩
  | append_singleton l x ih =>
    have hmax1 : ((l.filter (in_window cfg)).length : Int) ≤ INT_MAX := by
      rw [filter_window_snoc_length] at hmax
      push_cast at hmax
      split at hmax <;> omega
    obtain ⟨s1, hs1⟩ := ih hmax1
    have hinv1 := receive_loop_inv cfg l hmax1 s1 hs1
    rw [receive_loop_append cfg l [x] LoopState.init rfl, hs1]
    by_cases hre : s1.reached_end = true
    · refine ⟨s1, ?_⟩
      simp only [if_pos hre]
    · obtain ⟨s2, hs2⟩ := count_and_save_isSome cfg hN s1 hinv1.fc_nonneg x
      simp only [if_neg hre]
      rw [receive_loop_singleton]
      unfold process_frame
      rw [hs2]
      by_cases hp : past_end cfg x = true
      · exact ⟨{ s2 with reached_end := true }, by simp [hp]⟩
      · exact ⟨s2, by simp [hp]⟩

/-- With a stride other than 0 the main loop runs to its end, as long as the `int`
counters can hold the number of in-window frames. -/
theorem read_loop_isSome (cfg : Config) (hN : cfg.N ≠ 0) (ps : List Packet)
    (hmax : ((windowFrames cfg ps).length : Int) ≤ INT_MAX) :
    ∃ s, read_loop cfg LoopState.init ps = some s := by
  obtain ⟨k, hk⟩ := read_loop_eq_receive_loop cfg ps LoopState.init rfl
  obtain ⟨s, hs⟩ := receive_loop_isSome cfg hN (decoded cfg ps) hmax
  exact ⟨s.withReads k, by rw [hk, hs]; rfl⟩

/-! ## File names -/

theorem decDigits_eq_of_le (f1 f2 n : Nat) (h1 : n ≤ f1) (h2 : n ≤ f2) :
    decDigits f1 n = decDigits f2 n := by
  induction f1 generalizing f2 n with
  | zero =>
    have hn : n = 0 := by omega
    subst hn
    cases f2 <;> simp [decDigits]
  | succ f1 ih =>
    cases f2 with
    | zero =>
      have hn : n = 0 := by omega
      subst hn
      simp [decDigits]
    | succ f2 =>
      simp only [decDigits]
      by_cases hn : n = 0
      · simp [hn]
      · simp only [hn, if_false]
        rw [ih f2 (n / 10) (by omega) (by omega)]

theorem decDigits_zero : decDigits 0 0 = [] := rfl

theorem decDigits_step (n : Nat) (hn : n ≠ 0) :
    decDigits n n = (n % 10) :: decDigits (n / 10) (n / 10) := by
  obtain ⟨m, rfl⟩ := Nat.exists_eq_succ_of_ne_zero hn
  simp only [decDigits, hn, if_false]
  rw [decDigits_eq_of_le m ((m + 1) / 10) ((m + 1) / 10) (by omega) (le_refl _)]

theorem decDigits_lt_ten (n : Nat) : ∀ d ∈ decDigits n n, d < 10 := by
  induction n using Nat.strong_induction_on with
  | _ n ih =>
    by_cases hn : n = 0
    · subst hn; simp [decDigits]
    · rw [decDigits_step n hn]
      intro d hd
      rcases List.mem_cons.mp hd with rfl | hd
      · omega
      · exact ih (n / 10) (by omega) d hd

theorem ofDigits_decDigits (n : Nat) : Nat.ofDigits 10 (decDigits n n) = n := by
  induction n using Nat.strong_induction_on with
  | _ n ih =>
    by_cases hn : n = 0
    · subst hn; simp [decDigits]
    · rw [decDigits_step n hn, Nat.ofDigits_cons, ih (n / 10) (by omega)]
      omega

theorem ofDigits_replicate_zero (k : Nat) : Nat.ofDigits 10 (List.replicate k 0) = 0 := by
  induction k with
  | zero => rfl
  | succ k ih => rw [List.replicate_succ, Nat.ofDigits_cons, ih]

theorem digitChar_toNat (d : Nat) (h : d < 10) : (digitChar d).toNat - 48 = d := by
  interval_cases d <;> rfl

theorem decodeDigits_zeroPad (w n : Nat) : decodeDigits (zeroPad w n) = n := by
  unfold decodeDigits zeroPad
  rw [List.map_map, ← List.map_reverse, List.reverse_reverse]
  have hid : (decDigits n n ++ List.replicate (w - (decDigits n n).length) 0).map
      ((fun c : Char => c.toNat - 48) ∘ digitChar)
      = decDigits n n ++ List.replicate (w - (decDigits n n).length) 0 := by
    conv_rhs => rw [← List.map_id (decDigits n n ++ List.replicate (w - (decDigits n n).length) 0)]
    apply List.map_congr_left
    intro d hd
    rcases List.mem_append.mp hd with hd | hd
    · exact digitChar_toNat d (decDigits_lt_ten n d hd)
    · rw [(List.mem_replicate.mp hd).2]; rfl
  rw [hid, Nat.ofDigits_append, ofDigits_decDigits, ofDigits_replicate_zero]
  omega

theorem jpeg_filename_injective (i j : Int) (hi : 0 ≤ i) (hj : 0 ≤ j)
    (h : jpeg_filename i = jpeg_filename j) : i = j := by
  have h := congrArg String.data h
  simp only [jpeg_filename] at h
  rw [List.append_left_inj, List.append_right_inj] at h
  unfold fmt05d at h
  rw [if_neg (by omega), if_neg (by omega)] at h
  have h2 := congrArg decodeDigits h
  rw [decodeDigits_zeroPad, decodeDigits_zeroPad] at h2
  omega

theorem zeroPad_five (n : Nat) (h : n ≤ 99999) :
    zeroPad 5 n = [digitChar (n / 10000 % 10), digitChar (n / 1000 % 10),
      digitChar (n / 100 % 10), digitChar (n / 10 % 10), digitChar (n % 10)] := by
  unfold zeroPad
  by_cases h0 : n = 0
  · subst h0; rfl
  rw [decDigits_step n h0]
  by_cases h1 : n / 10 = 0
  · rw [h1, decDigits_zero]
    have e1 : n / 10000 % 10 = 0 := by omega
    have e2 : n / 1000 % 10 = 0 := by omega
    have e3 : n / 100 % 10 = 0 := by omega
    rw [e1, e2, e3]
    rfl
  rw [decDigits_step _ h1]
  by_cases h2 : n / 10 / 10 = 0
  · rw [h2, decDigits_zero]
    have e1 : n / 10000 % 10 = 0 := by omega
    have e2 : n / 1000 % 10 = 0 := by omega
    have e3 : n / 100 % 10 = 0 := by omega
    rw [e1, e2, e3]
    rfl
  rw [decDigits_step _ h2]
  by_cases h3 : n / 10 / 10 / 10 = 0
  · rw [h3, decDigits_zero]
    have e1 : n / 10000 % 10 = 0 := by omega
    have e2 : n / 1000 % 10 = 0 := by omega
    have e3 : n / 100 % 10 = n / 10 / 10 % 10 := by omega
    rw [e1, e2, e3]
    rfl
  rw [decDigits_step _ h3]
  by_cases h4 : n / 10 / 10 / 10 / 10 = 0
  · rw [h4, decDigits_zero]
    have e1 : n / 10000 % 10 = 0 := by omega
    have e2 : n / 1000 % 10 = n / 10 / 10 / 10 % 10 := by omega
    have e3 : n / 100 % 10 = n / 10 / 10 % 10 := by omega
    rw [e1, e2, e3]
    rfl
  rw [decDigits_step _ h4]
  have h5 : n / 10 / 10 / 10 / 10 / 10 = 0 := by omega
  rw [h5, decDigits_zero]
  have e1 : n / 10000 % 10 = n / 10 / 10 / 10 / 10 % 10 := by omega
  have e2 : n / 1000 % 10 = n / 10 / 10 / 10 % 10 := by omega
  have e3 : n / 100 % 10 = n / 10 / 10 % 10 := by omega
  rw [e1, e2, e3]
  rfl

theorem Inv.nodup_filenames (cfg : Config) (s : LoopState) (fs : List Frame)
    (hinv : Inv cfg s fs) : (s.artifacts.map Artifact.filename).Nodup := by
  obtain ⟨_, _, _, _, h5, h6⟩ := hinv
  have hmap : s.artifacts.map Artifact.filename
      = ((s.calls.filter (fun c => save_ok c.1)).map Prod.snd).map jpeg_filename := by
    rw [h6, List.map_map, List.map_map]
    rfl
  rw [hmap]
  have hsub : List.Sublist ((s.calls.filter (fun c => save_ok c.1)).map Prod.snd)
      ((List.range s.calls.length).map Int.ofNat) := by
    rw [← h5]
    exact List.Sublist.map _ (List.filter_sublist _)
  have hnd : ((List.range s.calls.length).map Int.ofNat).Nodup :=
    List.Nodup.map (fun a b hab => Int.ofNat.inj hab) (List.nodup_range _)
  refine List.Nodup.map_on ?_ (hnd.sublist hsub)
  intro a ha b hb hab
  have hnonneg : ∀ c ∈ (s.calls.filter (fun c => save_ok c.1)).map Prod.snd, (0 : Int) ≤ c := by
    intro c hc
    obtain ⟨k, _, rfl⟩ := List.mem_map.mp (hsub.subset hc)
    exact Int.ofNat_nonneg k
  exact jpeg_filename_injective a b (hnonneg a ha) (hnonneg b hb) hab

/-! ## Every N-th element of a list -/

theorem stride_lt_iff {α : Type} (W : List α) (calls : List (α × Int)) (N : Nat)
    (hU : ∀ j : Nat, calls[j]? = (W[j * N]?).map (fun f => (f, (j : Int)))) (j : Nat) :
    j < calls.length ↔ j * N < W.length := by
  have h := hU j
  constructor
  · intro hj
    by_contra hc
    rw [List.getElem?_eq_none (not_lt.mp hc), List.getElem?_eq_getElem hj] at h
    simp at h
  · intro hj
    by_contra hc
    rw [List.getElem?_eq_none (not_lt.mp hc), List.getElem?_eq_getElem hj] at h
    simp at h

theorem stride_length {α : Type} (W : List α) (calls : List (α × Int)) (N : Nat) (hN : 1 ≤ N)
    (hU : ∀ j : Nat, calls[j]? = (W[j * N]?).map (fun f => (f, (j : Int)))) :
    calls.length = (W.length + N - 1) / N := by
  have key : ∀ j, j < (W.length + N - 1) / N ↔ j * N < W.length := by
    intro j
    rw [Nat.lt_iff_add_one_le, Nat.le_div_iff_mul_le (by omega), Nat.add_mul]
    omega
  apply Nat.le_antisymm
  · by_contra hc
    have h1 : (W.length + N - 1) / N < calls.length := not_le.mp hc
    have h2 := (stride_lt_iff W calls N hU _).mp h1
    exact absurd ((key _).mpr h2) (lt_irrefl _)
  · by_contra hc
    have h1 : calls.length < (W.length + N - 1) / N := not_le.mp hc
    have h2 := (key _).mp h1
    exact absurd ((stride_lt_iff W calls N hU _).mpr h2) (lt_irrefl _)

theorem stride_hit_length {α : Type} (W : List α) (calls : List (α × Int)) (N : Nat) (hN : 1 ≤ N)
    (hU : ∀ j : Nat, calls[j]? = (W[j * N]?).map (fun f => (f, (j : Int))))
    (hmod : W.length % N = 0) : calls.length * N = W.length := by
  rw [stride_length W calls N hN hU]
  obtain ⟨q, hq⟩ := Nat.dvd_of_mod_eq_zero hmod
  rw [hq]
  have : (N * q + N - 1) / N = q := by
    rw [Nat.add_sub_assoc hN, Nat.mul_add_div (by omega)]
    rw [Nat.div_eq_of_lt (by omega)]
    rfl
  rw [this, Nat.mul_comm]

theorem stride_snoc_hit {α : Type} (W : List α) (calls : List (α × Int)) (N : Nat) (hN : 1 ≤ N)
    (x : α) (hU : ∀ j : Nat, calls[j]? = (W[j * N]?).map (fun f => (f, (j : Int))))
    (hmod : W.length % N = 0) (j : Nat) :
    (calls ++ [(x, (calls.length : Int))])[j]? =
      ((W ++ [x])[j * N]?).map (fun f => (f, (j : Int))) := by
  have hL := stride_hit_length W calls N hN hU hmod
  rcases Nat.lt_trichotomy j calls.length with hj | hj | hj
  · have hjn := (stride_lt_iff W calls N hU j).mp hj
    rw [List.getElem?_append_left hj, List.getElem?_append_left hjn]
    exact hU j
  · subst hj
    rw [hL]
    simp
  · have hjn : W.length + 1 ≤ j * N := by
      have : (calls.length + 1) * N ≤ j * N := Nat.mul_le_mul_right N hj
      rw [Nat.add_mul, hL] at this
      omega
    rw [List.getElem?_eq_none (by simp; omega), List.getElem?_eq_none (by simp; omega)]
    rfl

theorem stride_snoc_miss {α : Type} (W : List α) (calls : List (α × Int)) (N : Nat)
    (x : α) (hU : ∀ j : Nat, calls[j]? = (W[j * N]?).map (fun f => (f, (j : Int))))
    (hmod : W.length % N ≠ 0) (j : Nat) :
    calls[j]? = ((W ++ [x])[j * N]?).map (fun f => (f, (j : Int))) := by
  rw [hU j]
  rcases Nat.lt_trichotomy (j * N) W.length with hj | hj | hj
  · rw [List.getElem?_append_left hj]
  · exact absurd (by rw [← hj]; exact Nat.mul_mod_left j N) hmod
  · rw [List.getElem?_eq_none (by omega), List.getElem?_eq_none (by simp; omega)]

theorem tmod_natCast_eq_zero_iff (c N : Nat) :
    Int.tmod (c : Int) (N : Int) = 0 ↔ c % N = 0 := by
  rw [Int.tmod_eq_emod (Int.ofNat_nonneg c) (Int.ofNat_nonneg N)]
  norm_cast

/-! ## The stride of the loop -/

theorem filter_window_snoc (cfg : Config) (l : List Frame) (x : Frame) :
    (l ++ [x]).filter (in_window cfg) =
      l.filter (in_window cfg) ++ (if in_window cfg x then [x] else []) := by
  rw [List.filter_append]
  by_cases hw : in_window cfg x = true <;> simp [List.filter, hw]

/-- With a stride `N ≥ 1` and no frame past the end time, the inner loop run over the
frames `fs` ends with `frame_count` the number of in-window frames, and its `j`-th
call of `save_frame_as_jpeg` passes the in-window frame at position `j * N` and the
index `j`. -/
theorem receive_loop_stride (cfg : Config) (N : Nat) (hN : 1 ≤ N) (hcfg : cfg.N = (N : Int))
    (fs : List Frame) (hno : ∀ f ∈ fs, past_end cfg f = false)
    (hmax : ((fs.filter (in_window cfg)).length : Int) ≤ INT_MAX) :
    ∃ s, receive_loop cfg LoopState.init fs = some s ∧ s.reached_end = false
      ∧ s.frame_count = ((fs.filter (in_window cfg)).length : Int)
      ∧ ∀ j : Nat, s.calls[j]? =
          ((fs.filter (in_window cfg))[j * N]?).map (fun f => (f, (j : Int))) := by
  induction fs using List.reverseRecOn with
  | nil => exact ⟨LoopState.init, rfl, rfl, rfl, fun j => by simp [LoopState.init]⟩
  | append_singleton l x ih =>
    have hno1 : ∀ f ∈ l, past_end cfg f = false := fun f hf => hno f (List.mem_append_left _ hf)
    have hx : past_end cfg x = false := hno x (by simp)
    have hmax1 : ((l.filter (in_window cfg)).length : Int) ≤ INT_MAX := by
      rw [filter_window_snoc_length] at hmax
      push_cast at hmax
      split at hmax <;> omega
    obtain ⟨s1, hs1, hre1, hfc1, hU1⟩ := ih hno1 hmax1
    have hinv1 := receive_loop_inv cfg l hmax1 s1 hs1
    have hcfgN : cfg.N ≠ 0 := by rw [hcfg]; omega
    obtain ⟨s2, hs2⟩ := count_and_save_isSome cfg hcfgN s1 hinv1.fc_nonneg x
    have hpf : process_frame cfg s1 x = some (s2, false) := by
      simp [process_frame, hs2, hx]
    have hrun : receive_loop cfg LoopState.init (l ++ [x]) = some s2 := by
      rw [receive_loop_append cfg l [x] LoopState.init rfl, hs1]
      have hnr : ¬ s1.reached_end = true := by simp [hre1]
      simp only [if_neg hnr]
      rw [receive_loop_singleton, hpf]
      rfl
    have hre2 : s2.reached_end = false := by
      rw [(count_and_save_flags cfg s1 s2 x hs2).1]; exact hre1
    refine ⟨s2, hrun, hre2, ?_⟩
    rw [filter_window_snoc]
    rw [filter_window_snoc_length] at hmax
    rcases count_and_save_cases cfg s1 s2 x hs2 with
      ⟨hw, rfl⟩ | ⟨hw, _, hm, rfl⟩ | ⟨hw, _, hm, rfl⟩
    · simp only [hw, Bool.false_eq_true, if_false, List.append_nil]
      exact ⟨hfc1, hU1⟩
    · simp only [hw, if_true] at hmax ⊢
      push_cast at hmax
      have hwrap : wrap32 (s1.frame_count + 1) = s1.frame_count + 1 :=
        wrap32_of_int _ (by omega) (by omega)
      rw [hfc1, hcfg, Ne, tmod_natCast_eq_zero_iff] at hm
      refine ⟨?_, ?_⟩
      · show wrap32 (s1.frame_count + 1) = _
        rw [hwrap, hfc1]
        simp
      · intro j
        show s1.calls[j]? = _
        exact stride_snoc_miss _ s1.calls N x hU1 hm j
    · simp only [hw, if_true] at hmax ⊢
      push_cast at hmax
      have hwrap : wrap32 (s1.frame_count + 1) = s1.frame_count + 1 :=
        wrap32_of_int _ (by omega) (by omega)
      rw [hfc1, hcfg, tmod_natCast_eq_zero_iff] at hm
      refine ⟨?_, ?_⟩
      · show wrap32 (s1.frame_count + 1) = _
        rw [hwrap, hfc1]
        simp
      · intro j
        show (s1.calls ++ [(x, s1.saved_frame_count)])[j]? = _
        rw [hinv1.saved_eq]
        exact stride_snoc_hit _ s1.calls N hN x hU1 hm j

/-! ## The final state of `main` -/

theorem main_final (env : Env) (r : Run) (h : main env = some r) :
    r = Run.setupFailure ∨
    (setup_ok env = true ∧ r.exit_code = 0 ∧ ∃ s k,
      receive_loop (loop_config env (find_video_stream env.streams 0)) LoopState.init
        (decoded (loop_config env (find_video_stream env.streams 0)) env.packets) = some s
      ∧ r.final = s.withReads k) := by
  cases hok : setup_ok env with
  | false =>
    rw [main_of_setup_failure env hok, Option.some.injEq] at h
    exact Or.inl h.symm
  | true =>
    right
    rw [main_of_setup_ok env hok] at h
    obtain ⟨k, hk⟩ := read_loop_eq_receive_loop
      (loop_config env (find_video_stream env.streams 0)) env.packets LoopState.init rfl
    rw [hk] at h
    cases hrl : receive_loop (loop_config env (find_video_stream env.streams 0)) LoopState.init
        (decoded (loop_config env (find_video_stream env.streams 0)) env.packets) with
    | none => rw [hrl] at h; exact absurd h (by simp)
    | some s =>
      rw [hrl] at h
      simp only [Option.map_some', Option.some.injEq] at h
      subst h
      exact ⟨rfl, rfl, s, k, rfl, rfl⟩

/-! ## Settled properties: setup, exit code, degenerate window, seek target -/

/-- C7: the stream-selection loop yields the least index whose stream is a video
stream, every stream below that index being of another type; when no stream is a
video stream it yields -1 and `main` ends with exit code -1. -/
theorem find_video_stream_first (env : Env) :
    ((∃ s ∈ env.streams, s.codec_type = AVMediaType.VIDEO) →
      ∃ i : Nat, find_video_stream env.streams 0 = (i : Int)
        ∧ (∃ s, env.streams[i]? = some s ∧ s.codec_type = AVMediaType.VIDEO)
        ∧ ∀ j, j < i → ∀ s, env.streams[j]? = some s → s.codec_type ≠ AVMediaType.VIDEO)
    ∧ ((∀ s ∈ env.streams, s.codec_type ≠ AVMediaType.VIDEO) →
      find_video_stream env.streams 0 = -1
        ∧ ∃ r, main env = some r ∧ r.exit_code = -1 ∧ r.final.artifacts = []) := by
  constructor
  · rintro ⟨s, hs, hv⟩
    rcases find_video_stream_spec env.streams 0 with ⟨_, h2⟩ | ⟨i, h1, h2, h3⟩
    · exact absurd hv (h2 s hs)
    · exact ⟨i, by simpa using h1, h2, h3⟩
  · intro hnone
    rcases find_video_stream_spec env.streams 0 with ⟨h1, _⟩ | ⟨i, _, ⟨t, ht, htv⟩, _⟩
    · exact ⟨h1, Run.setupFailure, main_of_no_video env h1, rfl, rfl⟩
    · exact absurd htv (hnone t (List.mem_iff_getElem?.mpr ⟨i, ht⟩))

/-- Witness of C7: in the table audio, video the loop yields index 1, and a run over a
table with only an audio stream ends with exit code -1. -/
theorem find_video_stream_first_witness :
    (∃ i : Nat, find_video_stream sampleStreams 0 = (i : Int)
        ∧ (∃ s, sampleStreams[i]? = some s ∧ s.codec_type = AVMediaType.VIDEO)
        ∧ ∀ j, j < i → ∀ s, sampleStreams[j]? = some s → s.codec_type ≠ AVMediaType.VIDEO)
    ∧ (find_video_stream [⟨AVMediaType.AUDIO, ⟨1, 44100⟩⟩] 0 = -1
        ∧ ∃ r, main { sampleEnv 0 10 1 [] with streams := [⟨AVMediaType.AUDIO, ⟨1, 44100⟩⟩] }
              = some r ∧ r.exit_code = -1 ∧ r.final.artifacts = []) :=
  ⟨(find_video_stream_first (sampleEnv 0 10 1 [])).1 ⟨⟨AVMediaType.VIDEO, ⟨1, 25⟩⟩, by decide, rfl⟩,
    (find_video_stream_first
      { sampleEnv 0 10 1 [] with streams := [⟨AVMediaType.AUDIO, ⟨1, 44100⟩⟩] }).2 (by decide)⟩

/-- C8: `main` returns -1 and writes no file whenever one of the fatal setup steps
fails, and returns 0 whenever all of them succeed and the stride is not 0, whatever
the packets, the decoder, the encoder and the file writes do in the loop (for runs
whose in-window frames an `int` can count). -/
theorem main_exit_code (env : Env) :
    (setup_ok env = false →
      ∃ r, main env = some r ∧ r.exit_code = -1 ∧ r.final.calls = [] ∧ r.final.artifacts = [])
    ∧ (setup_ok env = true → env.N ≠ 0 →
        ((windowFrames (loop_config env (find_video_stream env.streams 0))
          env.packets).length : Int) ≤ INT_MAX →
        ∃ r, main env = some r ∧ r.exit_code = 0) := by
  constructor
  · intro h
    exact ⟨Run.setupFailure, main_of_setup_failure env h, rfl, rfl, rfl⟩
  · intro h hN hmax
    obtain ⟨s, hs⟩ := read_loop_isSome (loop_config env (find_video_stream env.streams 0))
      hN env.packets hmax
    exact ⟨_, by rw [main_of_setup_ok env h, hs]; rfl, rfl⟩

/-- Witness of C8: a run whose container does not open returns -1 without a file, and
a run with stride 2 whose only frame fails to encode returns 0. -/
theorem main_exit_code_witness :
    (∃ r, main { sampleEnv 0 10 2 [] with open_input_ok := false } = some r
        ∧ r.exit_code = -1 ∧ r.final.calls = [] ∧ r.final.artifacts = [])
    ∧ (∃ r, main (sampleEnv 0 10 2 [videoPacket { okFrame 0 with send_frame_ok := false }])
          = some r ∧ r.exit_code = 0) :=
  ⟨(main_exit_code { sampleEnv 0 10 2 [] with open_input_ok := false }).1 (by decide),
    (main_exit_code (sampleEnv 0 10 2 [videoPacket { okFrame 0 with send_frame_ok := false }])).2
      (by decide) (by decide) (by decide)⟩

/-- C6: when `start_time > end_time` and every setup step succeeds, `main` never calls
`save_frame_as_jpeg`, writes no file, leaves both counters at 0 and returns 0, for
every stride (0 included) and every packet sequence. -/
theorem reversed_window_saves_nothing (env : Env) (hwin : env.end_time < env.start_time)
    (hok : setup_ok env = true) :
    ∃ r, main env = some r ∧ r.exit_code = 0 ∧ r.final.calls = [] ∧ r.final.artifacts = []
      ∧ r.final.frame_count = 0 ∧ r.final.saved_frame_count = 0 := by
  obtain ⟨s, hs, h1, h2, h3, h4⟩ :=
    read_loop_sameCounters (loop_config env (find_video_stream env.streams 0))
      (fun f => in_window_false_of_lt _ f hwin) env.packets LoopState.init
  exact ⟨_, by rw [main_of_setup_ok env hok, hs]; rfl, rfl, h3, h4, h1, h2⟩

/-- Witness of C6: a run with start 5, end 2 and stride 0 over two video packets. -/
theorem reversed_window_saves_nothing_witness :
    ∃ r, main (sampleEnv 5 2 0 [videoPacket (okFrame 50), videoPacket (okFrame 100)]) = some r
      ∧ r.exit_code = 0 ∧ r.final.calls = [] ∧ r.final.artifacts = []
      ∧ r.final.frame_count = 0 ∧ r.final.saved_frame_count = 0 :=
  reversed_window_saves_nothing
    (sampleEnv 5 2 0 [videoPacket (okFrame 50), videoPacket (okFrame 100)])
    (by decide) (by decide)

/-- The `int` product of line 144 is the exact product as long as `start_time` is at
most 2147 seconds. -/
theorem start_pts_exact (start_time : Int) (h0 : 0 ≤ start_time) (h1 : start_time ≤ 2147) :
    start_pts start_time = start_time * 1000000 := by
  unfold start_pts wrap32 AV_TIME_BASE
  omega

/-- C10: at `start_time = 2148`, a non-negative `int`, the product
`start_time * AV_TIME_BASE` is formed in 32 bits and wraps: the seek target is
-2146967296 and not 2148000000. -/
theorem start_pts_wraps_at_2148 :
    (0 ≤ (2148 : Int) ∧ (2148 : Int) ≤ INT_MAX)
      ∧ start_pts 2148 = -2146967296
      ∧ start_pts 2148 ≠ 2148 * 1000000
      ∧ (∃ r, main (sampleEnv 2148 2150 1 []) = some r ∧ r.seek_target = some (-2146967296)) := by
  refine ⟨by decide, by decide, by decide, ⟨_, rfl, ?_⟩⟩
  decide

/-! ## Settled properties: file names -/

/-- C9: for every index from 0 to 99999 the name built by `save_frame_as_jpeg` is
`frame_`, the five decimal digits of the index (leading zeros included) and `.jpg`;
the map from index to name is injective on the non-negative indices; and in every
run of `main` whose in-window frames the `int` counters can count, the indices
passed to `save_frame_as_jpeg` are 0, 1, 2, ... in order and no two files written
share a name. -/
theorem jpeg_filename_unique :
    (∀ i : Int, 0 ≤ i → i ≤ 99999 →
      jpeg_filename i = String.mk ("frame_".data
        ++ [digitChar (i.toNat / 10000 % 10), digitChar (i.toNat / 1000 % 10),
            digitChar (i.toNat / 100 % 10), digitChar (i.toNat / 10 % 10),
            digitChar (i.toNat % 10)]
        ++ ".jpg".data))
    ∧ (∀ i j : Int, 0 ≤ i → 0 ≤ j → jpeg_filename i = jpeg_filename j → i = j)
    ∧ (∀ (env : Env) (r : Run), main env = some r →
        ((windowFrames (loop_config env (find_video_stream env.streams 0))
          env.packets).length : Int) ≤ INT_MAX →
        r.final.calls.map Prod.snd = (List.range r.final.calls.length).map Int.ofNat
          ∧ (r.final.artifacts.map Artifact.filename).Nodup) := by
  refine ⟨?_, jpeg_filename_injective, ?_⟩
  · intro i h0 h1
    unfold jpeg_filename fmt05d
    rw [if_neg (by omega)]
    have hn : i.natAbs = i.toNat := by omega
    rw [hn, zeroPad_five i.toNat (by omega)]
  · intro env r h hmax
    rcases main_final env r h with rfl | ⟨_, _, s, k, hs, hfinal⟩
    · exact ⟨rfl, List.nodup_nil⟩
    · have hinv := receive_loop_inv _ _ hmax s hs
      rw [hfinal]
      exact ⟨hinv.calls_idx, Inv.nodup_filenames _ s _ hinv⟩

/-- Witness of C9: index 7 is named `frame_00007.jpg`, the names of 3 and 3 agree, and
the run `gapEnv` numbers its two calls 0 and 1 and writes one file. -/
theorem jpeg_filename_unique_witness :
    jpeg_filename 7 = "frame_00007.jpg"
    ∧ (3 : Int) = 3
    ∧ (gapRun.final.calls.map Prod.snd = (List.range gapRun.final.calls.length).map Int.ofNat
        ∧ (gapRun.final.artifacts.map Artifact.filename).Nodup) :=
  ⟨jpeg_filename_unique.1 7 (by decide) (by decide),
    jpeg_filename_unique.2.1 3 3 (by decide) (by decide) rfl,
    jpeg_filename_unique.2.2 gapEnv gapRun (by decide) (by decide)⟩

/-! ## Settled properties: stride sampling -/

/-- C1: for every stride `N ≥ 1` and every packet sequence whose decoded frames never
exceed the end time (and whose in-window frames an `int` can count), when the encode
and the write of every dispatched frame succeed, the main loop ends with
`frame_count` the number of in-window frames and `saved_frame_count` the ceiling of
that number over `N`; its `j`-th call of `save_frame_as_jpeg` passes the in-window
frame at zero-based position `j * N` with index `j`, and its `j`-th file holds that
frame under the name of index `j`, so the frames saved are exactly those at the
positions 0, N, 2N, ...; and a frame whose time is below the start time leaves the
state, both counters included, unchanged. -/
theorem stride_sampling (cfg : Config) (ps : List Packet) (hN : 1 ≤ cfg.N)
    (hno : ∀ f ∈ decoded cfg ps, past_end cfg f = false)
    (hmax : ((windowFrames cfg ps).length : Int) ≤ INT_MAX)
    (hok : ∀ (j : Nat) (f : Frame),
      (windowFrames cfg ps)[j * cfg.N.toNat]? = some f → save_ok f = true) :
    (∃ st, read_loop cfg LoopState.init ps = some st
      ∧ st.frame_count = ((windowFrames cfg ps).length : Int)
      ∧ st.saved_frame_count = (((windowFrames cfg ps).length : Int) + cfg.N - 1) / cfg.N
      ∧ (∀ j : Nat, st.calls[j]? =
          ((windowFrames cfg ps)[j * cfg.N.toNat]?).map (fun f => (f, (j : Int))))
      ∧ (∀ j : Nat, st.artifacts[j]? =
          ((windowFrames cfg ps)[j * cfg.N.toNat]?).map
            (fun f => (⟨jpeg_filename (j : Int), f⟩ : Artifact))))
    ∧ (∀ (s : LoopState) (f : Frame),
        Double.lt (frame_time cfg f) (Double.ofInt cfg.start_time) = true →
        count_and_save cfg s f = some s) := by
  have hcfg : cfg.N = ((cfg.N.toNat : Nat) : Int) := (Int.toNat_of_nonneg (by omega)).symm
  have hN1 : 1 ≤ cfg.N.toNat := by omega
  obtain ⟨s, hs, _, hfc, hU⟩ :=
    receive_loop_stride cfg cfg.N.toNat hN1 hcfg (decoded cfg ps) hno hmax
  have hinv := receive_loop_inv cfg (decoded cfg ps) hmax s hs
  obtain ⟨k, hk⟩ := read_loop_eq_receive_loop cfg ps LoopState.init rfl
  rw [hs] at hk
  refine ⟨⟨s.withReads k, hk, hfc, ?_, hU, ?_⟩, ?_⟩
  · show s.saved_frame_count = _
    rw [hinv.saved_eq, stride_length _ s.calls cfg.N.toNat hN1 hU, Int.natCast_div]
    congr 1
    · unfold windowFrames
      omega
    · exact hcfg.symm
  · intro j
    show s.artifacts[j]? = _
    have hall : ∀ c ∈ s.calls, save_ok c.1 = true := by
      intro c hc
      obtain ⟨i, hi⟩ := List.mem_iff_getElem?.mp hc
      rw [hU i] at hi
      cases hw : (List.filter (in_window cfg) (decoded cfg ps))[i * cfg.N.toNat]? with
      | none => rw [hw] at hi; exact absurd hi (by simp)
      | some f =>
        rw [hw] at hi
        simp only [Option.map_some', Option.some.injEq] at hi
        subst hi
        exact hok i f hw
    have hfilter : s.calls.filter (fun c => save_ok c.1) = s.calls :=
      List.filter_eq_self.mpr hall
    rw [hinv.artifacts_eq, hfilter, List.getElem?_map, hU j, Option.map_map]
    rfl
  · intro st f hlt
    apply count_and_save_of_not_in_window
    unfold in_window
    rw [Double.not_ge_of_lt _ _ hlt]
    rfl

/-- Witness of C1: stride 2 over `stridePackets` with the window 1 s to 10 s.  Four
frames are in the window, the first and the third are saved, and the frame at 0 s
leaves the initial state as it is. -/
theorem stride_sampling_witness :
    (∃ st, read_loop (sampleConfig 1 10 2) LoopState.init stridePackets = some st
      ∧ st.frame_count = 4
      ∧ st.saved_frame_count = 2
      ∧ (∀ j : Nat, st.calls[j]? =
          ([okFrame 25, okFrame 50, okFrame 75, okFrame 100][j * 2]?).map
            (fun f => (f, (j : Int))))
      ∧ (∀ j : Nat, st.artifacts[j]? =
          ([okFrame 25, okFrame 50, okFrame 75, okFrame 100][j * 2]?).map
            (fun f => (⟨jpeg_filename (j : Int), f⟩ : Artifact))))
    ∧ count_and_save (sampleConfig 1 10 2) LoopState.init (okFrame 0) = some LoopState.init :=
  ⟨(stride_sampling (sampleConfig 1 10 2) stridePackets (by decide) (by decide) (by decide)
      (fun _ f h => (by decide : ∀ g ∈ windowFrames (sampleConfig 1 10 2) stridePackets,
        save_ok g = true) f (List.mem_iff_getElem?.mpr ⟨_, h⟩))).1,
    (stride_sampling (sampleConfig 1 10 2) stridePackets (by decide) (by decide) (by decide)
      (fun _ f h => (by decide : ∀ g ∈ windowFrames (sampleConfig 1 10 2) stridePackets,
        save_ok g = true) f (List.mem_iff_getElem?.mpr ⟨_, h⟩))).2
      LoopState.init (okFrame 0) (by decide)⟩

/-! ## Settled properties: the 10-second scenario -/

theorem scenario_receive_loop :
    (receive_loop (sampleConfig 2 5 5) LoopState.init scenarioFrames).map
      (fun s => (s.frame_count, s.saved_frame_count, s.artifacts))
      = some (76, 16, scenarioArtifacts) := by
  decide!

theorem scenario_read_loop (ps : List Packet)
    (h : decoded (sampleConfig 2 5 5) ps = scenarioFrames) :
    ∃ st, read_loop (sampleConfig 2 5 5) LoopState.init ps = some st
      ∧ st.frame_count = 76 ∧ st.saved_frame_count = 16 ∧ st.artifacts = scenarioArtifacts := by
  obtain ⟨k, hk⟩ := read_loop_eq_receive_loop (sampleConfig 2 5 5) ps LoopState.init rfl
  rw [h] at hk
  have hsc := scenario_receive_loop
  cases hrl : receive_loop (sampleConfig 2 5 5) LoopState.init scenarioFrames with
  | none => rw [hrl] at hsc; exact absurd hsc (by simp)
  | some s =>
    rw [hrl] at hk hsc
    simp only [Option.map_some', Option.some.injEq, Prod.mk.injEq] at hsc
    exact ⟨s.withReads k, hk, hsc.1, hsc.2.1, hsc.2.2⟩

theorem scenario_decoded : decoded (sampleConfig 2 5 5) scenarioPackets = scenarioFrames := by
  decide!

/-- C4, as stated, fails: on the 10-second stream at 25 fps with start 2, end 5 and
stride 5 the loop does not end with 75 processed and 15 saved frames; it ends with 76
and 16, because the frame at exactly 5 s is inside the window. -/
theorem scenario_not_75_15 :
    ¬ ∃ st, read_loop (sampleConfig 2 5 5) LoopState.init scenarioPackets = some st
      ∧ st.frame_count = 75 ∧ st.saved_frame_count = 15 := by
  rintro ⟨st, hst, h75, _⟩
  obtain ⟨st2, hst2, h76, _, _⟩ := scenario_read_loop scenarioPackets scenario_decoded
  rw [hst, Option.some.injEq] at hst2
  subst hst2
  rw [h75] at h76
  exact absurd h76 (by decide)

/-- C4, amended: whatever the packets are that carry the 250 frames of the 10-second
stream at 25 fps, with start 2, end 5 and stride 5 the loop ends with
`frame_count = 76` and `saved_frame_count = 16`, and the files written are those of the
indices 0 to 15, holding the frames at 2.0 s, 2.2 s, ..., 5.0 s. -/
theorem scenario_76_16 (ps : List Packet)
    (h : decoded (sampleConfig 2 5 5) ps = scenarioFrames) :
    ∃ st, read_loop (sampleConfig 2 5 5) LoopState.init ps = some st
      ∧ st.frame_count = 76 ∧ st.saved_frame_count = 16
      ∧ st.artifacts =
          (List.range 16).map (fun j => ⟨jpeg_filename (j : Int), okFrame (50 + 5 * (j : Int))⟩) :=
  scenario_read_loop ps h

/-- Witness of C4, amended: the stream demuxed one frame per packet. -/
theorem scenario_76_16_witness :
    ∃ st, read_loop (sampleConfig 2 5 5) LoopState.init scenarioPackets = some st
      ∧ st.frame_count = 76 ∧ st.saved_frame_count = 16
      ∧ st.artifacts =
          (List.range 16).map (fun j => ⟨jpeg_filename (j : Int), okFrame (50 + 5 * (j : Int))⟩) :=
  scenario_76_16 scenarioPackets (by decide!)

/-! ## Settled properties: the stride is not validated -/

theorem count_and_save_neg_stride (cfg : Config) (st : LoopState) (f : Frame)
    (h0 : 0 ≤ st.frame_count) :
    count_and_save { cfg with N := -cfg.N } st f = count_and_save cfg st f := by
  unfold count_and_save
  have h1 : in_window { cfg with N := -cfg.N } f = in_window cfg f := rfl
  have h2 : ({ cfg with N := -cfg.N } : Config).N = -cfg.N := rfl
  have hmin : st.frame_count ≠ INT_MIN := by unfold INT_MIN; omega
  rw [h1, h2, Int.tmod_neg]
  by_cases hN : cfg.N = 0
  · simp [hN]
  · have hN2 : ¬ -cfg.N = 0 := by omega
    simp [hN, hN2, hmin]

theorem filter_window_cons_length (cfg : Config) (f : Frame) (fs : List Frame) :
    (((f :: fs).filter (in_window cfg)).length : Int) =
      (if in_window cfg f then 1 else 0) + ((fs.filter (in_window cfg)).length : Int) := by
  by_cases hw : in_window cfg f = true
  · simp [List.filter, hw]; omega
  · simp [List.filter, hw]

theorem count_and_save_frame_count (cfg : Config) (st s : LoopState) (f : Frame)
    (h : count_and_save cfg st f = some s) (h0 : 0 ≤ st.frame_count)
    (hmax : st.frame_count + (if in_window cfg f then 1 else 0) ≤ INT_MAX) :
    s.frame_count = st.frame_count + (if in_window cfg f then 1 else 0) := by
  rcases count_and_save_cases cfg st s f h with ⟨hw, rfl⟩ | ⟨hw, _, _, rfl⟩ | ⟨hw, _, _, rfl⟩
  · simp [hw]
  · simp only [hw, if_true] at hmax ⊢
    exact wrap32_of_int _ (by omega) hmax
  · simp only [hw, if_true] at hmax ⊢
    exact wrap32_of_int _ (by omega) hmax

theorem process_frame_frame_count (cfg : Config) (st s : LoopState) (f : Frame) (b : Bool)
    (h : process_frame cfg st f = some (s, b)) (h0 : 0 ≤ st.frame_count)
    (hmax : st.frame_count + (if in_window cfg f then 1 else 0) ≤ INT_MAX) :
    s.frame_count = st.frame_count + (if in_window cfg f then 1 else 0) := by
  unfold process_frame at h
  cases hc : count_and_save cfg st f with
  | none => rw [hc] at h; exact absurd h (by simp)
  | some s1 =>
    rw [hc] at h
    have hfc := count_and_save_frame_count cfg st s1 f hc h0 hmax
    simp only at h
    split at h
    · simp only [Option.some.injEq, Prod.mk.injEq] at h
      obtain ⟨rfl, _⟩ := h
      exact hfc
    · simp only [Option.some.injEq, Prod.mk.injEq] at h
      obtain ⟨rfl, _⟩ := h
      exact hfc

theorem receive_loop_frame_count (cfg : Config) (fs : List Frame) (st s : LoopState)
    (h : receive_loop cfg st fs = some s) (h0 : 0 ≤ st.frame_count)
    (hmax : st.frame_count + ((fs.filter (in_window cfg)).length : Int) ≤ INT_MAX) :
    st.frame_count ≤ s.frame_count
      ∧ s.frame_count ≤ st.frame_count + ((fs.filter (in_window cfg)).length : Int) := by
  induction fs generalizing st with
  | nil =>
    simp only [receive_loop, Option.some.injEq] at h
    subst h
    simp
  | cons f fs ih =>
    rw [filter_window_cons_length] at hmax ⊢
    have hlen : (0 : Int) ≤ ((fs.filter (in_window cfg)).length : Int) := Int.ofNat_nonneg _
    simp only [receive_loop] at h
    cases hp : process_frame cfg st f with
    | none => rw [hp] at h; exact absurd h (by simp)
    | some q =>
      obtain ⟨s1, b⟩ := q
      rw [hp] at h
      have hfc := process_frame_frame_count cfg st s1 f b hp h0 (by omega)
      have hw : (0 : Int) ≤ (if in_window cfg f then 1 else 0) := by split <;> decide
      cases b with
      | true =>
        simp only [Option.some.injEq] at h
        subst h
        omega
      | false =>
        simp only at h
        obtain ⟨h1, h2⟩ := ih s1 h (by omega) (by omega)
        omega

theorem receive_loop_neg_stride (cfg : Config) (fs : List Frame) (st : LoopState)
    (h0 : 0 ≤ st.frame_count)
    (hmax : st.frame_count + ((fs.filter (in_window cfg)).length : Int) ≤ INT_MAX) :
    receive_loop { cfg with N := -cfg.N } st fs = receive_loop cfg st fs := by
  induction fs generalizing st with
  | nil => rfl
  | cons f fs ih =>
    rw [filter_window_cons_length] at hmax
    have hlen : (0 : Int) ≤ ((fs.filter (in_window cfg)).length : Int) := Int.ofNat_nonneg _
    have hw : (0 : Int) ≤ (if in_window cfg f then 1 else 0) := by split <;> decide
    have hp : process_frame { cfg with N := -cfg.N } st f = process_frame cfg st f := by
      unfold process_frame
      rw [count_and_save_neg_stride cfg st f h0]
      rfl
    simp only [receive_loop, hp]
    cases hq : process_frame cfg st f with
    | none => rfl
    | some q =>
      obtain ⟨s1, brk⟩ := q
      have hfc := process_frame_frame_count cfg st s1 f brk hq h0 (by omega)
      cases brk with
      | true => rfl
      | false => exact ih s1 (by omega) (by omega)

theorem read_loop_neg_stride (cfg : Config) (ps : List Packet) (st : LoopState)
    (h0 : 0 ≤ st.frame_count)
    (hmax : st.frame_count + (((decoded cfg ps).filter (in_window cfg)).length : Int)
      ≤ INT_MAX) :
    read_loop { cfg with N := -cfg.N } st ps = read_loop cfg st ps := by
  induction ps generalizing st with
  | nil => rfl
  | cons p ps ih =>
    have hlen : (0 : Int) ≤ (((decoded cfg ps).filter (in_window cfg)).length : Int) :=
      Int.ofNat_nonneg _
    simp only [read_loop]
    split
    · rfl
    · by_cases hv : p.stream_index = cfg.video_stream_index ∧ p.send_packet_ok = true
      · simp only [decoded, if_pos hv, List.filter_append, List.length_append,
          Nat.cast_add] at hmax
        have hlen2 : (0 : Int) ≤ ((p.frames.filter (in_window cfg)).length : Int) :=
          Int.ofNat_nonneg _
        have hpk : ∀ c : Config, c.video_stream_index = cfg.video_stream_index →
            process_packet c { st with reads := st.reads + 1 } p
              = receive_loop c { st with reads := st.reads + 1 } p.frames := by
          intro c hc
          unfold process_packet
          rw [hc, if_pos hv.1, if_pos hv.2]
        have hb : st.frame_count + ((p.frames.filter (in_window cfg)).length : Int)
            ≤ INT_MAX := by omega
        rw [hpk { cfg with N := -cfg.N } rfl, hpk cfg rfl,
          receive_loop_neg_stride cfg p.frames { st with reads := st.reads + 1 } h0 hb]
        cases hrl : receive_loop cfg { st with reads := st.reads + 1 } p.frames with
        | none => rfl
        | some s1 =>
          obtain ⟨h1, h2⟩ := receive_loop_frame_count cfg p.frames
            { st with reads := st.reads + 1 } s1 hrl h0 hb
          have h1a : st.frame_count ≤ s1.frame_count := h1
          have h2a : s1.frame_count
              ≤ st.frame_count + ((p.frames.filter (in_window cfg)).length : Int) := h2
          exact ih s1 (by omega) (by omega)
      · simp only [decoded, if_neg hv, List.nil_append] at hmax
        have hpk : ∀ c : Config, c.video_stream_index = cfg.video_stream_index →
            process_packet c { st with reads := st.reads + 1 } p
              = some { st with reads := st.reads + 1 } := by
          intro c hc
          unfold process_packet
          rw [hc]
          by_cases h1 : p.stream_index = cfg.video_stream_index
          · have h2 : ¬ p.send_packet_ok = true := fun h2 => hv ⟨h1, h2⟩
            rw [if_pos h1, if_neg h2]
          · rw [if_neg h1]
        rw [hpk { cfg with N := -cfg.N } rfl, hpk cfg rfl]
        exact ih { st with reads := st.reads + 1 } h0 hmax

theorem main_neg_stride (env : Env)
    (hmax : ((windowFrames (loop_config env (find_video_stream env.streams 0))
      env.packets).length : Int) ≤ INT_MAX) :
    main { env with N := -env.N } = main env := by
  have hsetup : setup_ok { env with N := -env.N } = setup_ok env := rfl
  cases hok : setup_ok env with
  | false =>
    rw [main_of_setup_failure env hok, main_of_setup_failure _ (hsetup.trans hok)]
  | true =>
    rw [main_of_setup_ok env hok, main_of_setup_ok _ (hsetup.trans hok)]
    have hloop : read_loop
        (loop_config { env with N := -env.N } (find_video_stream env.streams 0))
        LoopState.init env.packets
        = read_loop (loop_config env (find_video_stream env.streams 0)) LoopState.init
            env.packets :=
      read_loop_neg_stride (loop_config env (find_video_stream env.streams 0)) env.packets
        LoopState.init (le_refl _) (by simpa [LoopState.init, windowFrames] using hmax)
    exact congrArg (Option.map _) hloop

/-- C2, as stated, fails: with the stride -1 `main` does not reject the run; over one
video packet with a frame in the window it returns 0 and writes `frame_00000.jpg`. -/
theorem negative_stride_accepted :
    (-1 : Int) ≤ 0
    ∧ ∃ r, main (sampleEnv 0 10 (-1) [videoPacket (okFrame 0)]) = some r
        ∧ r.exit_code = 0
        ∧ r.final.artifacts.map Artifact.filename = ["frame_00000.jpg"] := by
  refine ⟨by decide, ⟨_, rfl, ?_, ?_⟩⟩ <;> decide

/-- C2, amended: a stride `N < 0` is not rejected; for runs whose in-window frames an
`int` can count, `main` does exactly what it does for the stride `-N`, and returns 0
whenever every setup step succeeds. -/
theorem negative_stride_runs (env : Env) (hN : env.N < 0)
    (hmax : ((windowFrames (loop_config env (find_video_stream env.streams 0))
      env.packets).length : Int) ≤ INT_MAX) :
    main env = main { env with N := -env.N }
    ∧ (setup_ok env = true → ∃ r, main env = some r ∧ r.exit_code = 0) := by
  refine ⟨(main_neg_stride env hmax).symm, ?_⟩
  intro hok
  obtain ⟨s, hs⟩ := read_loop_isSome (loop_config env (find_video_stream env.streams 0))
    (by show env.N ≠ 0; omega) env.packets hmax
  exact ⟨_, by rw [main_of_setup_ok env hok, hs]; rfl, rfl⟩

/-- Witness of C2, amended: stride -2 over `stridePackets`. -/
theorem negative_stride_runs_witness :
    main (sampleEnv 0 10 (-2) stridePackets) = main (sampleEnv 0 10 2 stridePackets)
    ∧ ∃ r, main (sampleEnv 0 10 (-2) stridePackets) = some r ∧ r.exit_code = 0 :=
  ⟨(negative_stride_runs (sampleEnv 0 10 (-2) stridePackets) (by decide) (by decide)).1,
    (negative_stride_runs (sampleEnv 0 10 (-2) stridePackets) (by decide) (by decide)).2
      (by decide)⟩

/-! ## The number of reads -/

theorem process_frame_break (cfg : Config) (st s : LoopState) (f : Frame) (b : Bool)
    (h : process_frame cfg st f = some (s, b)) : b = past_end cfg f ∧ s.reads = st.reads := by
  unfold process_frame at h
  cases hc : count_and_save cfg st f with
  | none => rw [hc] at h; exact absurd h (by simp)
  | some s1 =>
    rw [hc] at h
    have hr := (count_and_save_flags cfg st s1 f hc).2
    simp only at h
    split at h
    · rename_i hp
      simp only [Option.some.injEq, Prod.mk.injEq] at h
      obtain ⟨rfl, rfl⟩ := h
      exact ⟨hp.symm, hr⟩
    · rename_i hp
      simp only [Option.some.injEq, Prod.mk.injEq] at h
      obtain ⟨rfl, rfl⟩ := h
      exact ⟨by simpa using hp, hr⟩

theorem receive_loop_reached_end (cfg : Config) (fs : List Frame) (st s : LoopState)
    (hst : st.reached_end = false) (h : receive_loop cfg st fs = some s) :
    s.reached_end = fs.any (past_end cfg) ∧ s.reads = st.reads := by
  induction fs generalizing st with
  | nil =>
    simp only [receive_loop, Option.some.injEq] at h
    subst h
    exact ⟨hst, rfl⟩
  | cons f fs ih =>
    simp only [receive_loop] at h
    cases hp : process_frame cfg st f with
    | none => rw [hp] at h; exact absurd h (by simp)
    | some q =>
      obtain ⟨s1, b⟩ := q
      rw [hp] at h
      have hflag := process_frame_flag cfg st s1 f b hp hst
      obtain ⟨hb, hr⟩ := process_frame_break cfg st s1 f b hp
      cases b with
      | true =>
        simp only [Option.some.injEq] at h
        subst h
        exact ⟨by rw [hflag, List.any_cons, ← hb]; rfl, hr⟩
      | false =>
        simp only at h
        obtain ⟨h1, h2⟩ := ih s1 hflag h
        exact ⟨by rw [h1, List.any_cons, ← hb]; rfl, h2.trans hr⟩

theorem process_packet_reached_end (cfg : Config) (p : Packet) (st s : LoopState)
    (hst : st.reached_end = false) (h : process_packet cfg st p = some s) :
    s.reached_end = stops cfg p ∧ s.reads = st.reads := by
  unfold process_packet at h
  unfold stops
  by_cases h1 : p.stream_index = cfg.video_stream_index
  · by_cases h2 : p.send_packet_ok = true
    · rw [if_pos h1, if_pos h2] at h
      obtain ⟨h3, h4⟩ := receive_loop_reached_end cfg p.frames st s hst h
      exact ⟨by simp [h1, h2, h3], h4⟩
    · rw [if_pos h1, if_neg h2, Option.some.injEq] at h
      subst h
      exact ⟨by simp [h2, hst], rfl⟩
  · rw [if_neg h1, Option.some.injEq] at h
    subst h
    exact ⟨by simp [h1, hst], rfl⟩

/-- When the packet at position `pre.length + 1` is the first that yields a frame past
the end time, the loop ends after `pre.length + 2` calls of `av_read_frame`: one call
more than the position of that packet. -/
theorem read_loop_reads_after_stop (cfg : Config) (pre : List Packet) (p : Packet)
    (rest : List Packet) (st s : LoopState) (hst : st.reached_end = false)
    (hpre : ∀ q ∈ pre, stops cfg q = false) (hp : stops cfg p = true)
    (h : read_loop cfg st (pre ++ p :: rest) = some s) :
    s.reads = st.reads + pre.length + 2 := by
  induction pre generalizing st with
  | nil =>
    cases hpk : process_packet cfg (st.withReads (st.reads + 1)) p with
    | none =>
      have hnr : ¬ st.reached_end = true := by simp [hst]
      rw [List.nil_append, read_loop, if_neg hnr] at h
      change (match process_packet cfg (st.withReads (st.reads + 1)) p with
        | none => none
        | some st1 => read_loop cfg st1 rest) = some s at h
      rw [hpk] at h
      exact absurd h (by simp)
    | some s1 =>
      rw [List.nil_append, read_loop_cons_of_some cfg st p rest s1 hst hpk] at h
      obtain ⟨h1, h2⟩ :=
        process_packet_reached_end cfg p (st.withReads (st.reads + 1)) s1 hst hpk
      rw [hp] at h1
      rw [read_loop_of_reached_end cfg rest s1 h1, Option.some.injEq] at h
      subst h
      show s1.reads + 1 = _
      rw [h2]
      rfl
  | cons q pre ih =>
    cases hpk : process_packet cfg (st.withReads (st.reads + 1)) q with
    | none =>
      have hnr : ¬ st.reached_end = true := by simp [hst]
      rw [List.cons_append, read_loop, if_neg hnr] at h
      change (match process_packet cfg (st.withReads (st.reads + 1)) q with
        | none => none
        | some st1 => read_loop cfg st1 (pre ++ p :: rest)) = some s at h
      rw [hpk] at h
      exact absurd h (by simp)
    | some s1 =>
      rw [List.cons_append, read_loop_cons_of_some cfg st q _ s1 hst hpk] at h
      obtain ⟨h1, h2⟩ :=
        process_packet_reached_end cfg q (st.withReads (st.reads + 1)) s1 hst hpk
      rw [hpre q (List.mem_cons_self _ _)] at h1
      have hih := ih s1 h1 (fun r hr => hpre r (List.mem_cons_of_mem _ hr)) h
      rw [hih, h2, List.length_cons]
      show st.reads + 1 + pre.length + 2 = _
      omega

/-- The counter of saved frames advances at every call of `save_frame_as_jpeg`, also
when the encode or the write fails and no file appears. -/
theorem dispatch_counts_failed_save (st : LoopState) (f : Frame) (h : save_ok f = false) :
    (dispatch st f).saved_frame_count = wrap32 (st.saved_frame_count + 1)
      ∧ (dispatch st f).artifacts = st.artifacts := by
  refine ⟨rfl, ?_⟩
  show st.artifacts ++ (save_frame_as_jpeg f st.saved_frame_count).toList = st.artifacts
  rw [save_frame_as_jpeg_eq, h]
  simp

/-! ## Settled properties: where the code departs from its intent -/

/-- C3: after the packet whose frame lies past the end time, the loop condition calls
`av_read_frame` once more before it tests `reached_end`.  With the window 0 s to 1 s,
the frame past the end comes from the second packet, and the loop ends after three
calls of `av_read_frame`, whatever packets follow (none included). -/
theorem read_after_stop (rest : List Packet) :
    past_end (sampleConfig 0 1 1) (okFrame 0) = false
    ∧ past_end (sampleConfig 0 1 1) (okFrame 50) = true
    ∧ ∃ st, read_loop (sampleConfig 0 1 1) LoopState.init
          (videoPacket (okFrame 0) :: videoPacket (okFrame 50) :: rest) = some st
        ∧ st.reached_end = true ∧ st.reads = 3 := by
  refine ⟨by decide, by decide,
    { frame_count := 1, saved_frame_count := 1, reached_end := true, reads := 3,
      calls := [(okFrame 0, 0)], artifacts := [⟨"frame_00000.jpg", okFrame 0⟩] }, ?_, rfl, rfl⟩
  rw [read_loop_cons_of_some (sampleConfig 0 1 1) LoopState.init (videoPacket (okFrame 0)) _
      { frame_count := 1, saved_frame_count := 1, reached_end := false, reads := 1,
        calls := [(okFrame 0, 0)], artifacts := [⟨"frame_00000.jpg", okFrame 0⟩] }
      rfl (by decide),
    read_loop_cons_of_some (sampleConfig 0 1 1) _ (videoPacket (okFrame 50)) _
      { frame_count := 1, saved_frame_count := 1, reached_end := true, reads := 2,
        calls := [(okFrame 0, 0)], artifacts := [⟨"frame_00000.jpg", okFrame 0⟩] }
      rfl (by decide),
    read_loop_of_reached_end _ _ _ rfl]
  rfl

/-- C5: `saved_frame_count` is incremented when a frame is handed to
`save_frame_as_jpeg`, whether or not the encode succeeds.  In the run `gapEnv` the
encode of the first frame fails: the counter still ends at 2 and the only file
written carries index 1. -/
theorem saved_count_after_failed_encode :
    save_frame_as_jpeg { okFrame 0 with send_frame_ok := false } 0 = none
    ∧ main gapEnv = some gapRun
    ∧ gapRun.final.saved_frame_count = 2
    ∧ gapRun.final.artifacts.map Artifact.filename = ["frame_00001.jpg"] := by
  refine ⟨by decide, by decide, by decide, by decide⟩

end FrameExtractor
